import Mathlib

/-!
Shallow embedding of the Todo-App backend core (FastAPI + SQLModel):
data model from `app/models.py`, request schemas from `app/schemas.py`,
the task, tag and reminder routes from `app/routes/tasks.py`,
`app/routes/tags.py`, `app/routes/reminders.py`, and the background
reminder sweeper from `app/scheduler/reminder_checker.py`.

Conventions of the embedding:
* `datetime` values are integers counting minutes; `timedelta(days=1)`
  is 1440, `timedelta(minutes=m)` is `m`.  Each operation takes one
  wall-clock reading `now`, used for every `datetime.utcnow()` call that
  the request performs (including the `default_factory` calls of newly
  constructed rows).
* Python truthiness: an `Optional[int]` is falsy when `None` or `0`, an
  `Optional[str]` is falsy when `None` or empty, an `Optional[datetime]`
  is falsy only when `None` (a `datetime` object is always truthy).
* The store holds the contents of the four tables as lists plus the
  auto-increment counters; `session.delete(obj)` removes that row, which
  with unique ids is removal of the first row carrying the object's id.
* FastAPI validates the Pydantic request body before the handler runs, so
  the embedded operations check field validity first, then the
  `user_id != current_user.id` authorization guard, then run the handler.
* Kafka publishing is fire-and-forget and never consulted; only the
  sweeper's `reminder.due` events are modeled (as a returned list).
-/

namespace TodoApp

/-- One day in minutes (`timedelta(days=1)`). -/
def minutesPerDay : Int := 1440

/-- Python truthiness of an `Optional[int]`: `None` and `0` are falsy. -/
def intTruthy : Option Int → Bool
  | none => false
  | some v => v != 0

/-- Python truthiness of an `Optional[str]`: `None` and `""` are falsy. -/
def strTruthy : Option String → Bool
  | none => false
  | some v => v != ""

/-- `tasks` table row, fields as declared in `app/models.py` (class `Task`). -/
structure Task where
  id : Nat
  user_id : String
  title : String
  description : Option String
  completed : Bool
  created_at : Int
  updated_at : Int
  due_date : Option Int
  reminder_minutes : Option Int
  priority : String
  is_recurring : Bool
  recurrence_pattern : Option String
  recurrence_interval : Option Int
  recurrence_end_date : Option Int
  parent_task_id : Option Nat
  deriving Repr, DecidableEq

/-- `tags` table row (`app/models.py`, class `Tag`). -/
structure Tag where
  id : Nat
  user_id : String
  name : String
  color : String
  created_at : Int
  deriving Repr, DecidableEq

/-- `task_tags` junction row (`app/models.py`, class `TaskTag`). -/
structure TaskTag where
  task_id : Nat
  tag_id : Nat
  deriving Repr, DecidableEq

/-- `reminders` table row, exactly the fields declared in `app/models.py`
(class `Reminder`): `id`, `user_id`, `task_id`, `remind_at`, `sent`,
`created_at`.  The model declares neither a `read` nor a `sent_at`
column (and migration `003_add_phase5_columns.py` creates the table
without them), although `app/routes/reminders.py` and the sweeper
assign those attribute names. -/
structure Reminder where
  id : Nat
  user_id : String
  task_id : Nat
  remind_at : Int
  sent : Bool
  created_at : Int
  deriving Repr, DecidableEq

/-- The column names of the `reminders` table as declared by the
`Reminder` model in `app/models.py`. -/
def reminderColumns : List String :=
  ["id", "user_id", "task_id", "remind_at", "sent", "created_at"]

/-- The persistent store: contents of the four owner-scoped tables plus
the auto-increment id counters. -/
structure Store where
  tasks : List Task
  tags : List Tag
  taskTags : List TaskTag
  reminders : List Reminder
  nextTaskId : Nat
  nextTagId : Nat
  nextReminderId : Nat
  deriving Repr, DecidableEq

/-- The empty store. -/
def initStore : Store :=
  { tasks := [], tags := [], taskTags := [], reminders := [],
    nextTaskId := 1, nextTagId := 1, nextReminderId := 1 }

/-- Error taxonomy of the routes: 422 Pydantic validation failure,
403 `Access denied`, 404 `not found`, 400 duplicate tag name. -/
inductive ApiErr where
  | validationError
  | forbidden
  | notFound
  | conflict
  deriving Repr, DecidableEq

/-- `TaskCreate` request body (`app/schemas.py`). -/
structure TaskCreate where
  title : String
  description : Option String
  due_date : Option Int
  reminder_minutes : Option Int
  priority : String
  is_recurring : Bool
  recurrence_pattern : Option String
  recurrence_interval : Option Int
  recurrence_end_date : Option Int
  tag_ids : Option (List Nat)
  deriving Repr, DecidableEq

/-- `TaskUpdate` request body (`app/schemas.py`), every field optional. -/
structure TaskUpdate where
  title : Option String
  description : Option String
  completed : Option Bool
  due_date : Option Int
  reminder_minutes : Option Int
  priority : Option String
  is_recurring : Option Bool
  recurrence_pattern : Option String
  recurrence_interval : Option Int
  recurrence_end_date : Option Int
  tag_ids : Option (List Nat)
  deriving Repr, DecidableEq

/-- Membership of the `Priority` enum (`app/schemas.py`). -/
def validPriority (p : String) : Bool :=
  ["none", "low", "medium", "high", "urgent"].contains p

/-- Membership of the `RecurrencePattern` enum (`app/schemas.py`). -/
def validRecPattern (p : String) : Bool :=
  ["none", "daily", "weekly", "monthly", "yearly", "custom"].contains p

/-- Pydantic validation of `TaskCreate`: per-field constraints only —
`title` 1..200 chars, `description` at most 1000 chars,
`reminder_minutes >= 0`, enum membership, `recurrence_interval >= 1`.
The schema declares no cross-field validator, so no recurrence
invariant (`is_recurring` implies a pattern, `custom` implies an
interval) is checked anywhere. -/
def taskCreateValid (d : TaskCreate) : Bool :=
  (1 ≤ d.title.length && d.title.length ≤ 200)
  && (match d.description with | none => true | some s => s.length ≤ 1000)
  && (match d.reminder_minutes with | none => true | some m => 0 ≤ m)
  && validPriority d.priority
  && (match d.recurrence_pattern with | none => true | some p => validRecPattern p)
  && (match d.recurrence_interval with | none => true | some k => 1 ≤ k)

/-- Pydantic validation of `TaskUpdate` (same per-field constraints,
each applied only when the field is supplied). -/
def taskUpdateValid (d : TaskUpdate) : Bool :=
  (match d.title with | none => true | some s => 1 ≤ s.length && s.length ≤ 200)
  && (match d.description with | none => true | some s => s.length ≤ 1000)
  && (match d.reminder_minutes with | none => true | some m => 0 ≤ m)
  && (match d.priority with | none => true | some p => validPriority p)
  && (match d.recurrence_pattern with | none => true | some p => validRecPattern p)
  && (match d.recurrence_interval with | none => true | some k => 1 ≤ k)

/-- Python whitespace for `str.strip()`. -/
def isSpaceChar (c : Char) : Bool :=
  c = ' ' || c = '\t' || c = '\n' || c = '\r'

/-- Python `str.strip()`: drop leading and trailing whitespace. -/
def pyStrip (s : String) : String :=
  ⟨((s.data.dropWhile isSpaceChar).reverse.dropWhile isSpaceChar).reverse⟩

/-- `task_data.description.strip() if task_data.description else None`:
an empty (falsy) supplied string becomes `NULL`, otherwise whitespace is
stripped. -/
def stripOptDesc : Option String → Option String
  | none => none
  | some s => if s = "" then none else some (pyStrip s)

/-- Reminder creation shared by `create_task` (tasks.py lines 317-327),
`update_task` (lines 444-453) and `create_next_recurring_task` (lines
118-127): `if task.due_date and task.reminder_minutes:` create a row
with `remind_at = due_date - timedelta(minutes=reminder_minutes)` and
the `sent` column at its default `False`.  Note the Python truthiness:
`reminder_minutes = 0` is falsy, so no reminder is created for it. -/
def addReminderIfNeeded (t : Task) (now : Int) (s : Store) : Store :=
  match t.due_date with
  | some due =>
    match t.reminder_minutes with
    | some m =>
      if m ≠ 0 then
        { s with
          reminders := s.reminders ++
            [{ id := s.nextReminderId, user_id := t.user_id, task_id := t.id,
               remind_at := due - m, sent := false, created_at := now }],
          nextReminderId := s.nextReminderId + 1 }
      else s
    | none => s
  | none => s

/-- `update_task` lines 436-442: find the first reminder with
`task_id == task_id and sent == False` and `session.delete` it. -/
def eraseFirstUnsent : List Reminder → Nat → List Reminder
  | [], _ => []
  | r :: rs, tid =>
    if r.task_id = tid ∧ r.sent = false then rs
    else r :: eraseFirstUnsent rs tid

/-- Attach the supplied tag ids to a task, skipping (silently) ids whose
tag does not exist or belongs to another user (tasks.py lines 304-315
and 421-428). -/
def attachTags (uid : String) (taskId : Nat) (ids : List Nat) (s : Store) : Store :=
  { s with
    taskTags := s.taskTags ++
      (ids.filter (fun g => s.tags.any (fun tg => tg.id = g && tg.user_id = uid))).map
        (fun g => { task_id := taskId, tag_id := g }) }

/-- `POST /{user_id}/tasks` (tasks.py `create_task`, lines 266-331):
validate the body, check `user_id != current_user.id`, insert the task
(with `title.strip()`, both timestamps from `utcnow`), attach owned
tags, create the reminder when `due_date` and `reminder_minutes` are
both truthy.  The Kafka `task.created` publish is fire-and-forget and
not modeled. -/
def create_task (path_uid cur_uid : String) (d : TaskCreate) (now : Int)
    (s : Store) : Except ApiErr Task × Store :=
  if ¬ taskCreateValid d then (.error .validationError, s)
  else if path_uid = cur_uid then
    let task : Task :=
      { id := s.nextTaskId
        user_id := path_uid
        title := pyStrip d.title
        description := stripOptDesc d.description
        completed := false
        created_at := now
        updated_at := now
        due_date := d.due_date
        reminder_minutes := d.reminder_minutes
        priority := d.priority
        is_recurring := d.is_recurring
        recurrence_pattern := d.recurrence_pattern
        recurrence_interval := d.recurrence_interval
        recurrence_end_date := d.recurrence_end_date
        parent_task_id := none }
    let s1 : Store := { s with tasks := s.tasks ++ [task], nextTaskId := s.nextTaskId + 1 }
    let s2 : Store :=
      match d.tag_ids with
      | none => s1
      | some ids => attachTags path_uid task.id ids s1
    (.ok task, addReminderIfNeeded task now s2)
  else (.error .forbidden, s)

/-- `GET /{user_id}/tasks/{task_id}` (tasks.py `get_task`): 403 on path
mismatch, then `select(Task).where(Task.id == task_id, Task.user_id ==
user_id)`, 404 when absent. -/
def get_task (path_uid cur_uid : String) (tid : Nat) (s : Store) :
    Except ApiErr Task × Store :=
  if path_uid = cur_uid then
    match s.tasks.find? (fun t => t.id = tid && t.user_id = path_uid) with
    | none => (.error .notFound, s)
    | some t => (.ok t, s)
  else (.error .forbidden, s)

/-- Field patching of `update_task` (tasks.py lines 386-409): each
supplied field overwrites the stored one (`is not None` checks), then
`task.updated_at = datetime.utcnow()`. -/
def applyPatch (t : Task) (d : TaskUpdate) (now : Int) : Task :=
  { t with
    title := match d.title with | some v => pyStrip v | none => t.title
    description := match d.description with
      | some v => stripOptDesc (some v)
      | none => t.description
    completed := (d.completed).getD t.completed
    due_date := match d.due_date with | some v => some v | none => t.due_date
    reminder_minutes := match d.reminder_minutes with
      | some v => some v | none => t.reminder_minutes
    priority := (d.priority).getD t.priority
    is_recurring := (d.is_recurring).getD t.is_recurring
    recurrence_pattern := match d.recurrence_pattern with
      | some v => some v | none => t.recurrence_pattern
    recurrence_interval := match d.recurrence_interval with
      | some v => some v | none => t.recurrence_interval
    recurrence_end_date := match d.recurrence_end_date with
      | some v => some v | none => t.recurrence_end_date
    updated_at := now }

/-- `PUT /{user_id}/tasks/{task_id}` (tasks.py `update_task`, lines
364-458): validate, authorize, find the task, patch the supplied
fields, replace the tag set when `tag_ids` is supplied
(delete-all-then-insert), and — when the patch supplies `due_date` or
`reminder_minutes` — delete the task's existing unsent reminder and
create a fresh one when `due_date` and `reminder_minutes` are both
truthy on the patched row. -/
def update_task (path_uid cur_uid : String) (tid : Nat) (d : TaskUpdate)
    (now : Int) (s : Store) : Except ApiErr Task × Store :=
  if ¬ taskUpdateValid d then (.error .validationError, s)
  else if path_uid = cur_uid then
    match s.tasks.find? (fun t => t.id = tid && t.user_id = path_uid) with
    | none => (.error .notFound, s)
    | some t =>
      let t' := applyPatch t d now
      let s1 : Store :=
        { s with tasks := s.tasks.map (fun x => if x.id = t.id then t' else x) }
      let s2 : Store :=
        match d.tag_ids with
        | none => s1
        | some ids =>
          attachTags path_uid t'.id ids
            { s1 with taskTags := s1.taskTags.filter (fun tt => ¬ tt.task_id = tid) }
      let s3 : Store :=
        if d.due_date.isSome || d.reminder_minutes.isSome then
          addReminderIfNeeded t' now
            { s2 with reminders := eraseFirstUnsent s2.reminders tid }
        else s2
      (.ok t', s3)
  else (.error .forbidden, s)

/-- `DELETE /{user_id}/tasks/{task_id}` (tasks.py `delete_task`):
authorize, find, `session.delete(task)`.  The ORM cascade declared in
`models.py` removes the task's `task_tags` rows; `Reminder` declares no
relationship to `Task`, so reminder rows are left behind (the sweeper
self-heals such orphans). -/
def delete_task (path_uid cur_uid : String) (tid : Nat) (s : Store) :
    Except ApiErr Unit × Store :=
  if path_uid = cur_uid then
    match s.tasks.find? (fun t => t.id = tid && t.user_id = path_uid) with
    | none => (.error .notFound, s)
    | some t =>
      (.ok (),
       { s with
         tasks := s.tasks.filter (fun x => ¬ x.id = t.id),
         taskTags := s.taskTags.filter (fun tt => ¬ tt.task_id = t.id) })
  else (.error .forbidden, s)

/-- The row inserted by `create_next_recurring_task` (tasks.py lines
92-105): copies title, description, priority, reminder lead time and
the recurrence settings, with `completed=False`, `is_recurring=True`
(hardcoded), the computed due date and `parent_task_id = task.id`. -/
def spawnTask (task : Task) (next_due now : Int) (s : Store) : Task :=
  { id := s.nextTaskId
    user_id := task.user_id
    title := task.title
    description := task.description
    completed := false
    created_at := now
    updated_at := now
    due_date := some next_due
    reminder_minutes := task.reminder_minutes
    priority := task.priority
    is_recurring := true
    recurrence_pattern := task.recurrence_pattern
    recurrence_interval := task.recurrence_interval
    recurrence_end_date := task.recurrence_end_date
    parent_task_id := some task.id }

/-- The store effect of `create_next_recurring_task` after the new row
is built (tasks.py lines 107-127): insert it, copy the source task's
tag links to it, and create its reminder when applicable. -/
def spawnFinish (task new_task : Task) (now : Int) (s : Store) : Store :=
  let s1 : Store :=
    { s with tasks := s.tasks ++ [new_task], nextTaskId := s.nextTaskId + 1 }
  let s2 : Store :=
    { s1 with
      taskTags := s1.taskTags ++
        (s.taskTags.filter (fun tt => tt.task_id = task.id)).map
          (fun tt => { task_id := new_task.id, tag_id := tt.tag_id }) }
  addReminderIfNeeded new_task now s2

/-- `create_next_recurring_task` (tasks.py lines 61-129).  Returns
`None` when the task is not recurring, its pattern is falsy, or its
`due_date` is `None`.  Next due date: daily `+1` day, weekly
`+timedelta(weeks=1)` = 7 days, monthly `+30` days, yearly `+365` days,
`custom` with a truthy interval `+interval` days; any other case leaves
`next_due = task.due_date`.  When `recurrence_end_date` is set and
`next_due` exceeds it, returns `None`; otherwise inserts the new task
(`completed=False`, `is_recurring=True`, `parent_task_id = task.id`),
copies the source task's tag links and creates its reminder when
`due_date` and `reminder_minutes` are both truthy. -/
def create_next_recurring_task (task : Task) (now : Int) (s : Store) :
    Option Task × Store :=
  if task.is_recurring = false ∨ strTruthy task.recurrence_pattern = false then
    (none, s)
  else
    match task.due_date with
    | none => (none, s)
    | some due =>
      let pattern := task.recurrence_pattern.getD ""
      let next_due : Int :=
        if pattern = "daily" then due + minutesPerDay
        else if pattern = "weekly" then due + 7 * minutesPerDay
        else if pattern = "monthly" then due + 30 * minutesPerDay
        else if pattern = "yearly" then due + 365 * minutesPerDay
        else if pattern = "custom" ∧ intTruthy task.recurrence_interval then
          due + (task.recurrence_interval.getD 0) * minutesPerDay
        else due
      if (match task.recurrence_end_date with
          | some e => decide (next_due > e)
          | none => false) then
        (none, s)
      else
        let new_task : Task := spawnTask task next_due now s
        (some new_task, spawnFinish task new_task now s)

/-- `PATCH /{user_id}/tasks/{task_id}/complete` (tasks.py
`toggle_complete`, lines 496-538): authorize, find, flip `completed`,
bump `updated_at`; then, only when `was_incomplete and task.completed
and task.is_recurring`, call `create_next_recurring_task`.  Returns the
toggled task and the spawned next occurrence (if any). -/
def toggle_complete (path_uid cur_uid : String) (tid : Nat) (now : Int)
    (s : Store) : Except ApiErr Task × Option Task × Store :=
  if path_uid = cur_uid then
    match s.tasks.find? (fun t => t.id = tid && t.user_id = path_uid) with
    | none => (.error .notFound, none, s)
    | some t =>
      let was_incomplete := !t.completed
      let t' := { t with completed := !t.completed, updated_at := now }
      let s1 : Store :=
        { s with tasks := s.tasks.map (fun x => if x.id = t.id then t' else x) }
      if was_incomplete && t'.completed && t'.is_recurring then
        let r := create_next_recurring_task t' now s1
        (.ok t', r.1, r.2)
      else (.ok t', none, s1)
  else (.error .forbidden, none, s)

/-- `TagUpdate` request body (`app/schemas.py`). -/
structure TagUpdate where
  name : Option String
  color : Option String
  deriving Repr, DecidableEq

/-- A hexadecimal digit (for the tag color pattern). -/
def isHexDig (c : Char) : Bool :=
  c.isDigit || ('A' ≤ c && c ≤ 'F') || ('a' ≤ c && c ≤ 'f')

/-- The Pydantic color pattern of the tag schemas. -/
def isHexColor (c : String) : Bool :=
  c.length = 7 && c.front = '#' && (c.drop 1).all isHexDig

/-- Pydantic validation of `TagUpdate`. -/
def tagUpdateValid (d : TagUpdate) : Bool :=
  (match d.name with | none => true | some s => 1 ≤ s.length && s.length ≤ 50)
  && (match d.color with | none => true | some c => isHexColor c)

/-- `GET /{user_id}/tags/{tag_id}` (tags.py `get_tag`, lines 97-116). -/
def get_tag (path_uid cur_uid : String) (gid : Nat) (s : Store) :
    Except ApiErr Tag × Store :=
  if path_uid = cur_uid then
    match s.tags.find? (fun g => g.id = gid && g.user_id = path_uid) with
    | none => (.error .notFound, s)
    | some g => (.ok g, s)
  else (.error .forbidden, s)

/-- `PUT /{user_id}/tags/{tag_id}` (tags.py `update_tag`, lines
123-169): validate, authorize, find, reject a duplicate (owner, name)
pair with a 400, then overwrite the supplied fields. -/
def update_tag (path_uid cur_uid : String) (gid : Nat) (d : TagUpdate)
    (s : Store) : Except ApiErr Tag × Store :=
  if ¬ tagUpdateValid d then (.error .validationError, s)
  else if path_uid = cur_uid then
    match s.tags.find? (fun g => g.id = gid && g.user_id = path_uid) with
    | none => (.error .notFound, s)
    | some g =>
      match d.name with
      | some nm =>
        if s.tags.any (fun x =>
            x.user_id = path_uid && x.name = pyStrip nm && ¬ x.id = gid) then
          (.error .conflict, s)
        else
          let g' := { g with name := pyStrip nm, color := (d.color).getD g.color }
          (.ok g', { s with tags := s.tags.map (fun x => if x.id = g.id then g' else x) })
      | none =>
        let g' := { g with color := (d.color).getD g.color }
        (.ok g', { s with tags := s.tags.map (fun x => if x.id = g.id then g' else x) })
  else (.error .forbidden, s)

/-- `DELETE /{user_id}/tags/{tag_id}` (tags.py `delete_tag`, lines
176-198): authorize, find, delete; the ORM cascade removes the tag's
`task_tags` rows. -/
def delete_tag (path_uid cur_uid : String) (gid : Nat) (s : Store) :
    Except ApiErr Unit × Store :=
  if path_uid = cur_uid then
    match s.tags.find? (fun g => g.id = gid && g.user_id = path_uid) with
    | none => (.error .notFound, s)
    | some g =>
      (.ok (),
       { s with
         tags := s.tags.filter (fun x => ¬ x.id = g.id),
         taskTags := s.taskTags.filter (fun tt => ¬ tt.tag_id = g.id) })
  else (.error .forbidden, s)

/-- `PATCH /{user_id}/reminders/{reminder_id}/read` (reminders.py
`mark_reminder_read`, lines 178-202): authorize, find the owner's
reminder, 404 when absent; then the handler assigns
`reminder.read = True` and commits — but the `Reminder` model declares
no `read` column, so no persisted column of the row changes and the
store is returned unmodified. -/
def mark_reminder_read (path_uid cur_uid : String) (rid : Nat) (s : Store) :
    Except ApiErr Unit × Store :=
  if path_uid = cur_uid then
    match s.reminders.find? (fun r => r.id = rid && r.user_id = path_uid) with
    | none => (.error .notFound, s)
    | some _ => (.ok (), s)
  else (.error .forbidden, s)

/-- `DELETE /{user_id}/reminders/{reminder_id}` (reminders.py
`delete_reminder`, lines 241-262): authorize, find, delete. -/
def delete_reminder (path_uid cur_uid : String) (rid : Nat) (s : Store) :
    Except ApiErr Unit × Store :=
  if path_uid = cur_uid then
    match s.reminders.find? (fun r => r.id = rid && r.user_id = path_uid) with
    | none => (.error .notFound, s)
    | some r =>
      (.ok (), { s with reminders := s.reminders.filter (fun x => ¬ x.id = r.id) })
  else (.error .forbidden, s)

/-- The `reminder.due` Kafka event dispatched by the sweeper, carrying
`user_id`, `task_id`, the task title and `task.reminder_minutes or 0`. -/
inductive Event where
  | reminderDue (user_id : String) (task_id : Nat) (title : String)
      (minutes_before : Int)
  deriving Repr, DecidableEq

/-- `session.delete(reminder)` inside the sweeper: remove the row with
the reminder's id (the first such row; ids are unique). -/
def eraseReminderById : List Reminder → Nat → List Reminder
  | [], _ => []
  | r :: rs, rid => if r.id = rid then rs else r :: eraseReminderById rs rid

/-- `reminder.sent = True` on the row with the given id.  The
accompanying `reminder.sent_at = now` assignment of the sweeper targets
a column the `Reminder` model does not declare, so it changes no
persisted column. -/
def markSentById (l : List Reminder) (rid : Nat) : List Reminder :=
  l.map (fun x => if x.id = rid then { x with sent := true } else x)

/-- The body of the sweeper's per-reminder loop
(`reminder_checker.py` lines 73-94): when the reminder's task no longer
exists (`session.get(Task, reminder.task_id)` by primary key), delete
the orphan and emit nothing; otherwise mark it sent and emit one
`reminder.due` event. -/
def sweepOne (acc : Store × List Event) (r : Reminder) : Store × List Event :=
  match acc.1.tasks.find? (fun t => t.id = r.task_id) with
  | none => ({ acc.1 with reminders := eraseReminderById acc.1.reminders r.id }, acc.2)
  | some t =>
    ({ acc.1 with reminders := markSentById acc.1.reminders r.id },
     acc.2 ++ [.reminderDue r.user_id r.task_id t.title (t.reminder_minutes.getD 0)])

/-- One sweeper tick (`ReminderChecker._check_due_reminders`,
reminder_checker.py lines 54-96): select the reminders with
`remind_at <= now and sent == False`, then process each with
`sweepOne`.  Returns the updated store and the list of emitted
`reminder.due` events. -/
def check_due_reminders (now : Int) (s : Store) : Store × List Event :=
  (s.reminders.filter (fun r => decide (r.remind_at ≤ now) && !r.sent)).foldl
    sweepOne (s, [])

/-- The operations of the task lifecycle that C2 quantifies over:
any sequence of task creations and task updates. -/
inductive Op where
  | create (uid : String) (d : TaskCreate) (now : Int)
  | update (uid : String) (tid : Nat) (d : TaskUpdate) (now : Int)
  deriving Repr

/-- Run one operation against the store (each request is authorized as
its own owner, as the routes require). -/
def runOp (s : Store) : Op → Store
  | .create uid d now => (create_task uid uid d now s).2
  | .update uid tid d now => (update_task uid uid tid d now s).2

/-- Number of unsent reminder rows of one task. -/
def countUnsent : List Reminder → Nat → Nat
  | [], _ => 0
  | r :: rs, tid =>
    (if r.task_id = tid ∧ r.sent = false then 1 else 0) + countUnsent rs tid

/-- A daily recurring task due at `T` whose series ends two days later,
the configuration of the spec's recurrence chain example. -/
def dailyChainTask (T : Int) : Task :=
  { id := 1, user_id := "u1", title := "daily", description := none,
    completed := false, created_at := 0, updated_at := 0,
    due_date := some T, reminder_minutes := none, priority := "none",
    is_recurring := true, recurrence_pattern := some "daily",
    recurrence_interval := none, recurrence_end_date := some (T + 2 * minutesPerDay),
    parent_task_id := none }

section Lemmas

/-- Result of `create_next_recurring_task` on a recurring task with a
truthy pattern, a due date and no series end, as a function of the
computed next due date `nd`. -/
theorem cnrt_result_endNone (t : Task) (p : String) (d : Int) (now : Int) (s : Store)
    (hrec : t.is_recurring = true)
    (hpat : t.recurrence_pattern = some p)
    (hne : p ≠ "")
    (hdue : t.due_date = some d)
    (hend : t.recurrence_end_date = none)
    (nd : Int)
    (hnd : nd = if p = "daily" then d + minutesPerDay
      else if p = "weekly" then d + 7 * minutesPerDay
      else if p = "monthly" then d + 30 * minutesPerDay
      else if p = "yearly" then d + 365 * minutesPerDay
      else if p = "custom" ∧ intTruthy t.recurrence_interval then
        d + (t.recurrence_interval.getD 0) * minutesPerDay
      else d) :
    create_next_recurring_task t now s =
      (some (spawnTask t nd now s), spawnFinish t (spawnTask t nd now s) now s) := by
  subst hnd
  unfold create_next_recurring_task
  rw [hrec, hpat, hdue, hend]
  simp only [strTruthy, Option.getD_some]
  rw [if_neg (by simp [hne])]
  simp

/-- Result of `create_next_recurring_task` on a recurring task with a
truthy pattern, a due date and a series end `e`, as a function of the
computed next due date `nd`. -/
theorem cnrt_result_endSome (t : Task) (p : String) (d e : Int) (now : Int) (s : Store)
    (hrec : t.is_recurring = true)
    (hpat : t.recurrence_pattern = some p)
    (hne : p ≠ "")
    (hdue : t.due_date = some d)
    (hend : t.recurrence_end_date = some e)
    (nd : Int)
    (hnd : nd = if p = "daily" then d + minutesPerDay
      else if p = "weekly" then d + 7 * minutesPerDay
      else if p = "monthly" then d + 30 * minutesPerDay
      else if p = "yearly" then d + 365 * minutesPerDay
      else if p = "custom" ∧ intTruthy t.recurrence_interval then
        d + (t.recurrence_interval.getD 0) * minutesPerDay
      else d) :
    create_next_recurring_task t now s =
      if nd > e then (none, s)
      else (some (spawnTask t nd now s), spawnFinish t (spawnTask t nd now s) now s) := by
  subst hnd
  unfold create_next_recurring_task
  rw [hrec, hpat, hdue, hend]
  simp only [strTruthy, Option.getD_some]
  rw [if_neg (by simp [hne])]
  by_cases hgt : (if p = "daily" then d + minutesPerDay
    else if p = "weekly" then d + 7 * minutesPerDay
    else if p = "monthly" then d + 30 * minutesPerDay
    else if p = "yearly" then d + 365 * minutesPerDay
    else if p = "custom" ∧ intTruthy t.recurrence_interval then
      d + (t.recurrence_interval.getD 0) * minutesPerDay
    else d) > e
  · simp [hgt]
  · simp [hgt]

/-- `find?` skips a prefix on which the predicate is false. -/
theorem find?_append_of_false {α : Type} (p : α → Bool) (l1 l2 : List α)
    (h : ∀ x ∈ l1, p x = false) :
    (l1 ++ l2).find? p = l2.find? p := by
  induction l1 with
  | nil => rfl
  | cons b bs ih =>
    have hb : p b = false := h b (by simp)
    simp only [List.cons_append, List.find?]
    rw [hb]
    exact ih (fun x hx => h x (by simp [hx]))

/-- `find?` on an extended list keeps an existing hit. -/
theorem find?_append_some {α : Type} (p : α → Bool) (l1 l2 : List α) (a : α)
    (h : l1.find? p = some a) : (l1 ++ l2).find? p = some a := by
  induction l1 with
  | nil => simp [List.find?] at h
  | cons b bs ih =>
    cases hb : p b with
    | true =>
      have hb' : (b :: bs).find? p = some b := by simp [List.find?, hb]
      rw [hb'] at h
      simp only [List.cons_append, List.find?, hb]
      exact h
    | false =>
      have hb' : (b :: bs).find? p = bs.find? p := by simp [List.find?, hb]
      rw [hb'] at h
      simp only [List.cons_append, List.find?, hb]
      exact ih h

/-- A successful `find?` splits the list around the found element, with
the predicate false on everything before it. -/
theorem find?_split {α : Type} (p : α → Bool) (l : List α) (a : α)
    (h : l.find? p = some a) :
    ∃ l1 l2, l = l1 ++ a :: l2 ∧ ∀ x ∈ l1, p x = false := by
  induction l with
  | nil => simp [List.find?] at h
  | cons b bs ih =>
    cases hb : p b with
    | true =>
      have hb' : (b :: bs).find? p = some b := by simp [List.find?, hb]
      rw [hb'] at h
      injection h with h
      exact ⟨[], bs, by rw [h]; rfl, by simp⟩
    | false =>
      have hb' : (b :: bs).find? p = bs.find? p := by simp [List.find?, hb]
      rw [hb'] at h
      obtain ⟨l1, l2, heq, hall⟩ := ih h
      refine ⟨b :: l1, l2, by rw [heq]; rfl, ?_⟩
      intro x hx
      rcases List.mem_cons.mp hx with h1 | h1
      · rw [h1]; exact hb
      · exact hall x h1

/-- Replacing (by id) the task found by an owner-scoped lookup makes the
same lookup return the replacement, provided ids are unique and the
replacement keeps the id and owner. -/
theorem find?_tasks_replace (l : List Task) (t t' : Task) (tid : Nat) (u : String)
    (hN : (l.map Task.id).Nodup)
    (hfind : l.find? (fun x => x.id = tid && x.user_id = u) = some t)
    (hid : t'.id = t.id) (huser : t'.user_id = t.user_id) :
    (l.map (fun x => if x.id = t.id then t' else x)).find?
      (fun x => x.id = tid && x.user_id = u) = some t' := by
  have hpt := List.find?_some hfind
  simp only [Bool.and_eq_true, decide_eq_true_eq] at hpt
  obtain ⟨l1, l2, rfl, hall⟩ := find?_split _ _ _ hfind
  rw [List.map_append, List.map_cons]
  rw [find?_append_of_false]
  · have hft : (if t.id = t.id then t' else t) = t' := if_pos rfl
    rw [hft, List.find?]
    have : (t'.id = tid && t'.user_id = u) = true := by
      simp [hid, huser, hpt.1, hpt.2]
    rw [this]
  · intro x hx
    obtain ⟨y, hy, rfl⟩ := List.mem_map.mp hx
    have hyid : y.id ≠ t.id := by
      rw [List.map_append, List.map_cons] at hN
      rcases List.nodup_append.mp hN with ⟨-, -, hdisj⟩
      intro hcontra
      exact hdisj (List.mem_map_of_mem _ hy) (by rw [← hcontra]; simp)
    rw [if_neg hyid]
    exact hall y hy

/-- `addReminderIfNeeded` only touches the reminders table. -/
theorem addReminderIfNeeded_tasks (x : Task) (n : Int) (st : Store) :
    (addReminderIfNeeded x n st).tasks = st.tasks := by
  unfold addReminderIfNeeded
  cases x.due_date with
  | none => rfl
  | some due =>
    cases x.reminder_minutes with
    | none => rfl
    | some m =>
      by_cases h : m ≠ 0
      · simp [h]
      · simp [h]

/-- The spawn step never mutates or removes existing task rows (it at
most appends one), so a successful owner-scoped task lookup survives
`create_next_recurring_task`. -/
theorem cnrt_preserves_find (t0 : Task) (now : Int) (s : Store)
    (p : Task → Bool) (a : Task) (h : s.tasks.find? p = some a) :
    (create_next_recurring_task t0 now s).2.tasks.find? p = some a := by
  unfold create_next_recurring_task
  split
  · exact h
  · cases t0.due_date with
    | none => exact h
    | some due =>
      simp only
      repeat' split
      all_goals try exact h
      all_goals
        simp only [spawnFinish]
        rw [addReminderIfNeeded_tasks]
        exact find?_append_some _ _ _ _ h

/-- An owner-scoped lookup returns nothing when the row carrying the
requested id (ids unique) belongs to another owner. -/
theorem find?_cross_owner_none {α : Type} (keyf : α → Nat) (ownf : α → String)
    (l : List α) (k : Nat) (u : String) (a : α)
    (hN : (l.map keyf).Nodup) (hmem : a ∈ l) (hid : keyf a = k)
    (hne : ownf a ≠ u)
    (p : α → Bool)
    (hp : ∀ x, p x = (keyf x = k && ownf x = u)) :
    l.find? p = none := by
  rw [List.find?_eq_none]
  intro x hx
  rw [hp x]
  simp only [Bool.and_eq_true, decide_eq_true_eq, not_and]
  intro hxid
  have hxa : x = a :=
    List.inj_on_of_nodup_map hN hx hmem (by rw [hid, hxid])
  rw [hxa]
  exact hne

/-- `task.completed = not task.completed; task.updated_at = utcnow()`
(tasks.py lines 522-524). -/
def toggledTask (t : Task) (now : Int) : Task :=
  { t with completed := !t.completed, updated_at := now }

/-- The store with the toggled row committed in place of the found one
(tasks.py lines 526-528). -/
def toggledStore (s : Store) (t t' : Task) : Store :=
  { s with tasks := s.tasks.map (fun x => if x.id = t.id then t' else x) }

/-- Evaluation of `toggle_complete` on a found task: the returned task
is the input with `completed` flipped and `updated_at` bumped, and a
spawn is attempted exactly when the task was incomplete and is
recurring. -/
theorem toggle_eval (u : String) (tid : Nat) (now : Int) (s : Store) (t : Task)
    (hfind : s.tasks.find? (fun x => x.id = tid && x.user_id = u) = some t) :
    ∃ s', toggle_complete u u tid now s =
      (.ok (toggledTask t now),
       (if (!t.completed && t.is_recurring) = true then
         (create_next_recurring_task (toggledTask t now) now
           (toggledStore s t (toggledTask t now))).1
       else none),
       s') := by
  unfold toggle_complete toggledTask toggledStore
  rw [if_pos rfl]
  simp only [hfind]
  by_cases hb : (!t.completed && t.is_recurring) = true
  · rw [if_pos hb]
    rw [if_pos (show ((!t.completed && !t.completed) && t.is_recurring) = true by
      rw [Bool.and_self]; exact hb)]
    exact ⟨_, rfl⟩
  · rw [if_neg hb]
    rw [if_neg (show ¬((!t.completed && !t.completed) && t.is_recurring) = true by
      rw [Bool.and_self]; exact hb)]
    exact ⟨_, rfl⟩

/-- After a toggle, the same owner-scoped lookup finds the toggled task
(ids being unique). -/
theorem toggle_find_after (u : String) (tid : Nat) (now : Int) (s : Store) (t : Task)
    (hN : (s.tasks.map Task.id).Nodup)
    (hfind : s.tasks.find? (fun x => x.id = tid && x.user_id = u) = some t) :
    ((toggle_complete u u tid now s).2.2).tasks.find?
      (fun x => x.id = tid && x.user_id = u) = some (toggledTask t now) := by
  have hrepl := find?_tasks_replace s.tasks t (toggledTask t now) tid u hN hfind rfl rfl
  unfold toggle_complete
  rw [if_pos rfl]
  simp only [hfind]
  split
  · exact cnrt_preserves_find _ _ _ _ _ hrepl
  · exact hrepl

/-- An unsent reminder row as the routes construct it. -/
def mkReminder (rid : Nat) (uid : String) (tid : Nat) (ra now : Int) : Reminder :=
  { id := rid, user_id := uid, task_id := tid, remind_at := ra,
    sent := false, created_at := now }

/-- Effect of `addReminderIfNeeded` when both `due_date` and a nonzero
`reminder_minutes` are present: one unsent reminder at
`due_date - reminder_minutes` is appended. -/
theorem addRem_pos (t : Task) (now : Int) (s : Store) (D m : Int)
    (hD : t.due_date = some D) (hm : t.reminder_minutes = some m)
    (hm0 : m ≠ 0) :
    addReminderIfNeeded t now s =
      { s with
        reminders :=
          s.reminders ++ [mkReminder s.nextReminderId t.user_id t.id (D - m) now],
        nextReminderId := s.nextReminderId + 1 } := by
  unfold addReminderIfNeeded mkReminder
  simp only [hD, hm]
  rw [if_pos hm0]

/-- `countUnsent` is the length of the rows returned by the query
`task_id == tid and sent == False`. -/
theorem countUnsent_eq_filter (l : List Reminder) (tid : Nat) :
    countUnsent l tid =
      (l.filter (fun r => r.task_id = tid && r.sent = false)).length := by
  induction l with
  | nil => rfl
  | cons r rs ih =>
    unfold countUnsent
    by_cases hr : r.task_id = tid ∧ r.sent = false
    · rw [if_pos hr, List.filter_cons_of_pos (by simp [hr.1, hr.2]),
        List.length_cons, ih]
      omega
    · rw [if_neg hr, List.filter_cons_of_neg (by simpa using hr), ih]
      omega

/-- Equation: `countUnsent` on the empty table. -/
theorem countUnsent_nil (tid : Nat) : countUnsent [] tid = 0 := rfl

/-- Equation: `countUnsent` on a cons cell. -/
theorem countUnsent_cons (r : Reminder) (rs : List Reminder) (tid : Nat) :
    countUnsent (r :: rs) tid =
      (if r.task_id = tid ∧ r.sent = false then 1 else 0) +
        countUnsent rs tid := rfl

/-- `countUnsent` distributes over append. -/
theorem countUnsent_append (l1 l2 : List Reminder) (tid : Nat) :
    countUnsent (l1 ++ l2) tid = countUnsent l1 tid + countUnsent l2 tid := by
  induction l1 with
  | nil => simp [countUnsent_nil]
  | cons r rs ih =>
    rw [List.cons_append, countUnsent_cons, countUnsent_cons, ih]
    omega

/-- `countUnsent` of a single fresh (unsent) reminder row. -/
theorem countUnsent_single (rid : Nat) (uid : String) (tk : Nat) (ra now : Int)
    (tid : Nat) :
    countUnsent [mkReminder rid uid tk ra now] tid =
      if tk = tid then 1 else 0 := by
  rw [countUnsent_cons, countUnsent_nil]
  by_cases h : tk = tid
  · rw [if_pos h, if_pos ⟨h, rfl⟩]
  · rw [if_neg h, if_neg (by rintro ⟨h1, -⟩; exact h h1)]

/-- A task id larger than every reminder's `task_id` has no unsent
reminder. -/
theorem countUnsent_zero_of_bound (l : List Reminder) (n : Nat)
    (hb : ∀ r ∈ l, r.task_id < n) : countUnsent l n = 0 := by
  induction l with
  | nil => rfl
  | cons r rs ih =>
    rw [countUnsent_cons]
    rw [if_neg (by rintro ⟨h1, -⟩; have := hb r (by simp); omega)]
    rw [ih (fun x hx => hb x (by simp [hx]))]

/-- Deleting the first unsent reminder of a task keeps only rows that
were already present. -/
theorem eraseFirstUnsent_subset (l : List Reminder) (tid : Nat) :
    ∀ r ∈ eraseFirstUnsent l tid, r ∈ l := by
  induction l with
  | nil => intro r hr; exact absurd hr (by simp [eraseFirstUnsent])
  | cons x xs ih =>
    intro r hr
    unfold eraseFirstUnsent at hr
    by_cases hx : x.task_id = tid ∧ x.sent = false
    · rw [if_pos hx] at hr
      exact List.mem_cons_of_mem _ hr
    · rw [if_neg hx] at hr
      rcases List.mem_cons.mp hr with h | h
      · rw [h]; simp
      · exact List.mem_cons_of_mem _ (ih r h)

/-- Deleting the first unsent reminder never increases any count. -/
theorem countUnsent_erase_le (l : List Reminder) (tid tid' : Nat) :
    countUnsent (eraseFirstUnsent l tid) tid' ≤ countUnsent l tid' := by
  induction l with
  | nil => exact Nat.le_refl _
  | cons x xs ih =>
    unfold eraseFirstUnsent
    by_cases hx : x.task_id = tid ∧ x.sent = false
    · rw [if_pos hx, countUnsent_cons]
      omega
    · rw [if_neg hx, countUnsent_cons, countUnsent_cons]
      omega

/-- When a task has at most one unsent reminder, deleting the first one
leaves none. -/
theorem countUnsent_erase_self (l : List Reminder) (tid : Nat)
    (h : countUnsent l tid ≤ 1) :
    countUnsent (eraseFirstUnsent l tid) tid = 0 := by
  induction l with
  | nil => rfl
  | cons x xs ih =>
    unfold eraseFirstUnsent
    rw [countUnsent_cons] at h
    by_cases hx : x.task_id = tid ∧ x.sent = false
    · rw [if_pos hx]
      rw [if_pos hx] at h
      omega
    · rw [if_neg hx]
      rw [if_neg hx] at h
      rw [countUnsent_cons, if_neg hx]
      rw [ih (by omega)]

/-- `addReminderIfNeeded` is the identity when `due_date` is absent or
`reminder_minutes` is absent or `0` (Python falsy). -/
theorem addRem_skip (t : Task) (now : Int) (s : Store)
    (h : t.due_date = none ∨ t.reminder_minutes = none ∨
         t.reminder_minutes = some 0) :
    addReminderIfNeeded t now s = s := by
  unfold addReminderIfNeeded
  rcases h with h | h | h
  · simp only [h]
  · simp only [h]
    cases t.due_date <;> rfl
  · simp only [h]
    cases t.due_date <;> simp

/-- The C2 induction invariant: every task has at most one unsent
reminder, and all reminder `task_id`s and task ids are below the
auto-increment counter (freshness). -/
def InvC2 (s : Store) : Prop :=
  (∀ tid, countUnsent s.reminders tid ≤ 1) ∧
  (∀ r ∈ s.reminders, r.task_id < s.nextTaskId) ∧
  (∀ t ∈ s.tasks, t.id < s.nextTaskId)

/-- Replacing one task row by another with the same id keeps all task
ids below the counter. -/
theorem mapped_tasks_bound (l : List Task) (t t' : Task) (n : Nat)
    (ht : ∀ x ∈ l, x.id < n) (hid : t'.id = t.id) :
    ∀ x ∈ l.map (fun y => if y.id = t.id then t' else y), x.id < n := by
  intro x hx
  obtain ⟨y, hy, rfl⟩ := List.mem_map.mp hx
  by_cases hyt : y.id = t.id
  · rw [if_pos hyt, hid, ← hyt]
    exact ht y hy
  · rw [if_neg hyt]
    exact ht y hy

/-- `addReminderIfNeeded` preserves the C2 invariant, provided the task
it serves has no unsent reminder yet and its id is fresh-bounded. -/
theorem addRem_invC2 (t : Task) (now : Int) (st : Store)
    (hcount : ∀ tid, countUnsent st.reminders tid ≤ 1)
    (hzero : countUnsent st.reminders t.id = 0)
    (hbound : ∀ r ∈ st.reminders, r.task_id < st.nextTaskId)
    (htb : t.id < st.nextTaskId)
    (htasks : ∀ x ∈ st.tasks, x.id < st.nextTaskId) :
    InvC2 (addReminderIfNeeded t now st) := by
  cases hd : t.due_date with
  | none =>
    rw [addRem_skip t now st (Or.inl hd)]
    exact ⟨hcount, hbound, htasks⟩
  | some D =>
    cases hm : t.reminder_minutes with
    | none =>
      rw [addRem_skip t now st (Or.inr (Or.inl hm))]
      exact ⟨hcount, hbound, htasks⟩
    | some m =>
      by_cases hm0 : m = 0
      · rw [addRem_skip t now st (Or.inr (Or.inr (by rw [hm, hm0])))]
        exact ⟨hcount, hbound, htasks⟩
      · rw [addRem_pos t now st D m hd hm hm0]
        refine ⟨?_, ?_, htasks⟩
        · intro tid
          show countUnsent
            (st.reminders ++ [mkReminder st.nextReminderId t.user_id t.id (D - m) now])
            tid ≤ 1
          rw [countUnsent_append, countUnsent_single]
          by_cases htt : t.id = tid
          · rw [if_pos htt, ← htt, hzero]
          · rw [if_neg htt]
            have := hcount tid
            omega
        · intro r hr
          have hr' : r ∈ st.reminders ++
              [mkReminder st.nextReminderId t.user_id t.id (D - m) now] := hr
          rcases List.mem_append.mp hr' with h | h
          · exact hbound r h
          · rw [List.mem_singleton.mp h]
            exact htb


/-- `create_task` preserves the C2 invariant. -/
theorem invC2_create (u : String) (d : TaskCreate) (now : Int) (s : Store)
    (h : InvC2 s) : InvC2 (create_task u u d now s).2 := by
  obtain ⟨hc, hb, ht⟩ := h
  by_cases hv : taskCreateValid d
  · unfold create_task
    rw [if_neg (by simp [hv]), if_pos rfl]
    dsimp only
    cases hti : d.tag_ids with
    | none =>
      apply addRem_invC2
      · exact hc
      · exact countUnsent_zero_of_bound _ _ hb
      · intro r hr
        exact Nat.lt_succ_of_lt (hb r hr)
      · exact Nat.lt_succ_self _
      · intro x hx
        rcases List.mem_append.mp hx with h1 | h1
        · exact Nat.lt_succ_of_lt (ht x h1)
        · rw [List.mem_singleton.mp h1]
          exact Nat.lt_succ_self _
    | some ids =>
      apply addRem_invC2
      · exact hc
      · exact countUnsent_zero_of_bound _ _ hb
      · intro r hr
        exact Nat.lt_succ_of_lt (hb r hr)
      · exact Nat.lt_succ_self _
      · intro x hx
        rcases List.mem_append.mp hx with h1 | h1
        · exact Nat.lt_succ_of_lt (ht x h1)
        · rw [List.mem_singleton.mp h1]
          exact Nat.lt_succ_self _
  · unfold create_task
    rw [if_pos (by simp [hv])]
    exact ⟨hc, hb, ht⟩

/-- `update_task` preserves the C2 invariant. -/
theorem invC2_update (u : String) (tid : Nat) (d : TaskUpdate) (now : Int)
    (s : Store) (h : InvC2 s) : InvC2 (update_task u u tid d now s).2 := by
  obtain ⟨hc, hb, ht⟩ := h
  by_cases hv : taskUpdateValid d
  · unfold update_task
    rw [if_neg (by simp [hv]), if_pos rfl]
    cases hfind : s.tasks.find? (fun x => x.id = tid && x.user_id = u) with
    | none => exact ⟨hc, hb, ht⟩
    | some t =>
      have hmem : t ∈ s.tasks := List.mem_of_find?_eq_some hfind
      have htid : t.id = tid := by
        have hp := List.find?_some hfind
        simp only [Bool.and_eq_true, decide_eq_true_eq] at hp
        exact hp.1
      dsimp only
      by_cases hsup : (d.due_date.isSome || d.reminder_minutes.isSome) = true
      · rw [if_pos hsup]
        cases hti : d.tag_ids with
        | none =>
          apply addRem_invC2
          · intro tid'
            show countUnsent (eraseFirstUnsent s.reminders tid) tid' ≤ 1
            exact (countUnsent_erase_le _ _ _).trans (hc tid')
          · show countUnsent (eraseFirstUnsent s.reminders tid)
              (applyPatch t d now).id = 0
            rw [show (applyPatch t d now).id = t.id from rfl, htid]
            exact countUnsent_erase_self _ _ (hc tid)
          · intro r hr
            exact hb r (eraseFirstUnsent_subset _ _ r hr)
          · show (applyPatch t d now).id < s.nextTaskId
            rw [show (applyPatch t d now).id = t.id from rfl]
            exact ht t hmem
          · intro x hx
            exact mapped_tasks_bound s.tasks t (applyPatch t d now)
              s.nextTaskId ht rfl x hx
        | some ids =>
          apply addRem_invC2
          · intro tid'
            show countUnsent (eraseFirstUnsent s.reminders tid) tid' ≤ 1
            exact (countUnsent_erase_le _ _ _).trans (hc tid')
          · show countUnsent (eraseFirstUnsent s.reminders tid)
              (applyPatch t d now).id = 0
            rw [show (applyPatch t d now).id = t.id from rfl, htid]
            exact countUnsent_erase_self _ _ (hc tid)
          · intro r hr
            exact hb r (eraseFirstUnsent_subset _ _ r hr)
          · show (applyPatch t d now).id < s.nextTaskId
            rw [show (applyPatch t d now).id = t.id from rfl]
            exact ht t hmem
          · intro x hx
            exact mapped_tasks_bound s.tasks t (applyPatch t d now)
              s.nextTaskId ht rfl x hx
      · rw [if_neg hsup]
        cases hti : d.tag_ids with
        | none =>
          exact ⟨hc, hb, mapped_tasks_bound s.tasks t (applyPatch t d now)
            s.nextTaskId ht rfl⟩
        | some ids =>
          exact ⟨hc, hb, fun x hx => mapped_tasks_bound s.tasks t
            (applyPatch t d now) s.nextTaskId ht rfl x hx⟩
  · unfold update_task
    rw [if_pos (by simp [hv])]
    exact ⟨hc, hb, ht⟩

/-- Every create/update step preserves the C2 invariant. -/
theorem invC2_step (s : Store) (o : Op) (h : InvC2 s) : InvC2 (runOp s o) := by
  cases o with
  | create uid d now => exact invC2_create uid d now s h
  | update uid tid d now => exact invC2_update uid tid d now s h

/-- The C2 invariant holds in every store reachable from the empty one
by create and update operations. -/
theorem invC2_reachable (ops : List Op) :
    InvC2 (ops.foldl runOp initStore) := by
  have hinit : InvC2 initStore := by
    refine ⟨fun tid => ?_, ?_, ?_⟩
    · rw [show initStore.reminders = [] from rfl, countUnsent_nil]
      omega
    · intro r hr
      exact absurd hr (by simp [initStore])
    · intro t htm
      exact absurd htm (by simp [initStore])
  suffices hstep : ∀ (l : List Op) (s : Store), InvC2 s →
      InvC2 (l.foldl runOp s) by
    exact hstep ops initStore hinit
  intro l
  induction l with
  | nil => intro s hs; exact hs
  | cons o os ih =>
    intro s hs
    exact ih (runOp s o) (invC2_step s o hs)

/-- Rows surviving `eraseReminderById` were already present. -/
theorem eraseById_subset (l : List Reminder) (rid : Nat) :
    ∀ x ∈ eraseReminderById l rid, x ∈ l := by
  induction l with
  | nil => intro x hx; exact absurd hx (by simp [eraseReminderById])
  | cons y ys ih =>
    intro x hx
    unfold eraseReminderById at hx
    by_cases hy : y.id = rid
    · rw [if_pos hy] at hx
      exact List.mem_cons_of_mem _ hx
    · rw [if_neg hy] at hx
      rcases List.mem_cons.mp hx with h | h
      · rw [h]; simp
      · exact List.mem_cons_of_mem _ (ih x h)

/-- `eraseReminderById` keeps rows with a different id. -/
theorem mem_eraseById_of_ne (l : List Reminder) (rid : Nat) (x : Reminder)
    (hx : x ∈ l) (hne : x.id ≠ rid) : x ∈ eraseReminderById l rid := by
  induction l with
  | nil => exact absurd hx (by simp)
  | cons y ys ih =>
    unfold eraseReminderById
    by_cases hy : y.id = rid
    · rw [if_pos hy]
      rcases List.mem_cons.mp hx with h | h
      · exact absurd (by rw [h]; exact hy) hne
      · exact h
    · rw [if_neg hy]
      rcases List.mem_cons.mp hx with h | h
      · rw [h]; simp
      · exact List.mem_cons_of_mem _ (ih h)

/-- With unique ids, after `eraseReminderById` no row carries the
erased id. -/
theorem erase_removes_id (l : List Reminder) (rid : Nat)
    (hN : (l.map Reminder.id).Nodup) :
    ∀ x ∈ eraseReminderById l rid, x.id ≠ rid := by
  induction l with
  | nil => intro x hx; exact absurd hx (by simp [eraseReminderById])
  | cons y ys ih =>
    rw [List.map_cons, List.nodup_cons] at hN
    intro x hx
    unfold eraseReminderById at hx
    by_cases hy : y.id = rid
    · rw [if_pos hy] at hx
      intro hc
      exact hN.1 (by rw [hy, ← hc]; exact List.mem_map_of_mem _ hx)
    · rw [if_neg hy] at hx
      rcases List.mem_cons.mp hx with h | h
      · rw [h]; exact hy
      · exact ih hN.2 x h

/-- `eraseReminderById` yields a sublist. -/
theorem eraseById_sublist (l : List Reminder) (rid : Nat) :
    List.Sublist (eraseReminderById l rid) l := by
  induction l with
  | nil => simp [eraseReminderById]
  | cons y ys ih =>
    unfold eraseReminderById
    by_cases hy : y.id = rid
    · rw [if_pos hy]
      exact List.sublist_cons_of_sublist _ (List.Sublist.refl _)
    · rw [if_neg hy]
      exact List.Sublist.cons₂ _ ih

/-- `markSentById` keeps every row's id. -/
theorem markSent_ids (l : List Reminder) (rid : Nat) :
    (markSentById l rid).map Reminder.id = l.map Reminder.id := by
  unfold markSentById
  rw [List.map_map]
  congr 1
  funext y
  by_cases hy : y.id = rid
  · simp [hy]
  · simp [hy]

/-- `markSentById` keeps rows whose id differs. -/
theorem mem_markSent_of_ne (l : List Reminder) (rid : Nat) (x : Reminder)
    (hx : x ∈ l) (hne : x.id ≠ rid) : x ∈ markSentById l rid := by
  have h2 := List.mem_map_of_mem
    (fun y => if y.id = rid then { y with sent := true } else y) hx
  dsimp only at h2
  rw [if_neg hne] at h2
  exact h2

/-- `markSentById` marks the targeted row sent. -/
theorem marked_mem (l : List Reminder) (x : Reminder) (hx : x ∈ l) :
    { x with sent := true } ∈ markSentById l x.id := by
  have h2 := List.mem_map_of_mem
    (fun y => if y.id = x.id then { y with sent := true } else y) hx
  dsimp only at h2
  rw [if_pos rfl] at h2
  exact h2

/-- Evaluation of `sweepOne` on an orphan reminder (task deleted). -/
theorem sweepOne_orphan (acc : Store × List Event) (r : Reminder)
    (hf : acc.1.tasks.find? (fun t => t.id = r.task_id) = none) :
    sweepOne acc r =
      ({ acc.1 with reminders := eraseReminderById acc.1.reminders r.id },
       acc.2) := by
  unfold sweepOne
  rw [hf]

/-- Evaluation of `sweepOne` on a reminder whose task exists. -/
theorem sweepOne_live (acc : Store × List Event) (r : Reminder) (t : Task)
    (hf : acc.1.tasks.find? (fun t => t.id = r.task_id) = some t) :
    sweepOne acc r =
      ({ acc.1 with reminders := markSentById acc.1.reminders r.id },
       acc.2 ++ [.reminderDue r.user_id r.task_id t.title
         (t.reminder_minutes.getD 0)]) := by
  unfold sweepOne
  rw [hf]

/-- `sweepOne` never touches the tasks table. -/
theorem sweepOne_tasks (acc : Store × List Event) (r : Reminder) :
    (sweepOne acc r).1.tasks = acc.1.tasks := by
  unfold sweepOne
  cases hf : acc.1.tasks.find? (fun t => t.id = r.task_id) with
  | none => rfl
  | some t => rfl

/-- A whole sweep pass never touches the tasks table. -/
theorem sweep_foldl_tasks (L : List Reminder) (acc : Store × List Event) :
    ((L.foldl sweepOne acc).1).tasks = acc.1.tasks := by
  induction L generalizing acc with
  | nil => rfl
  | cons r rs ih =>
    rw [List.foldl_cons, ih, sweepOne_tasks]

/-- A sweep pass preserves uniqueness of reminder ids. -/
theorem sweep_foldl_nodup (L : List Reminder) (acc : Store × List Event)
    (hN : (acc.1.reminders.map Reminder.id).Nodup) :
    (((L.foldl sweepOne acc).1.reminders).map Reminder.id).Nodup := by
  induction L generalizing acc with
  | nil => exact hN
  | cons r rs ih =>
    rw [List.foldl_cons]
    apply ih
    cases hf : acc.1.tasks.find? (fun t => t.id = r.task_id) with
    | none =>
      rw [sweepOne_orphan acc r hf]
      exact List.Nodup.sublist ((eraseById_sublist _ _).map _) hN
    | some t =>
      rw [sweepOne_live acc r t hf]
      show ((markSentById acc.1.reminders r.id).map Reminder.id).Nodup
      rw [markSent_ids]
      exact hN

/-- A sweep pass keeps a row untouched when no processed reminder
shares its id. -/
theorem sweep_pres_mem (L : List Reminder) (acc : Store × List Event)
    (x : Reminder) (hids : ∀ r ∈ L, r.id ≠ x.id)
    (hx : x ∈ acc.1.reminders) :
    x ∈ (L.foldl sweepOne acc).1.reminders := by
  induction L generalizing acc with
  | nil => exact hx
  | cons r rs ih =>
    rw [List.foldl_cons]
    apply ih _ (fun r' hr' => hids r' (List.mem_cons_of_mem _ hr'))
    have hne : x.id ≠ r.id := fun hc => hids r (by simp) hc.symm
    cases hf : acc.1.tasks.find? (fun t => t.id = r.task_id) with
    | none =>
      rw [sweepOne_orphan acc r hf]
      exact mem_eraseById_of_ne _ _ _ hx hne
    | some t =>
      rw [sweepOne_live acc r t hf]
      exact mem_markSent_of_ne _ _ _ hx hne

/-- A sweep pass introduces no row with an id absent from its input. -/
theorem sweep_pres_absent (L : List Reminder) (acc : Store × List Event)
    (rid : Nat) (habs : ∀ x ∈ acc.1.reminders, x.id ≠ rid) :
    ∀ x ∈ (L.foldl sweepOne acc).1.reminders, x.id ≠ rid := by
  induction L generalizing acc with
  | nil => exact habs
  | cons r rs ih =>
    rw [List.foldl_cons]
    apply ih
    intro x hx
    cases hf : acc.1.tasks.find? (fun t => t.id = r.task_id) with
    | none =>
      rw [sweepOne_orphan acc r hf] at hx
      exact habs x (eraseById_subset _ _ x hx)
    | some t =>
      rw [sweepOne_live acc r t hf] at hx
      obtain ⟨y, hy, hxy⟩ := List.mem_map.mp hx
      have hyid : x.id = y.id := by
        rw [← hxy]
        by_cases hyr : y.id = r.id
        · rw [if_pos hyr]
        · rw [if_neg hyr]
      rw [hyid]
      exact habs y hy

/-- A sweep pass emits exactly one event per processed reminder whose
task exists. -/
theorem sweep_events_count (L : List Reminder) (acc : Store × List Event) :
    (L.foldl sweepOne acc).2.length =
      acc.2.length +
        (L.filter (fun r => acc.1.tasks.any (fun t => t.id = r.task_id))).length := by
  induction L generalizing acc with
  | nil => simp
  | cons r rs ih =>
    rw [List.foldl_cons, ih]
    simp only [sweepOne_tasks]
    cases hany : acc.1.tasks.any (fun t => t.id = r.task_id) with
    | false =>
      have hf : acc.1.tasks.find? (fun t => t.id = r.task_id) = none := by
        rw [List.find?_eq_none]
        intro x hx hpx
        have htr : acc.1.tasks.any (fun t => t.id = r.task_id) = true :=
          List.any_eq_true.mpr ⟨x, hx, hpx⟩
        rw [hany] at htr
        exact absurd htr (by simp)
      rw [sweepOne_orphan acc r hf,
        List.filter_cons_of_neg (by simp [hany])]
    | true =>
      obtain ⟨t0, ht0, hpt0⟩ := List.any_eq_true.mp hany
      cases hf : acc.1.tasks.find? (fun t => t.id = r.task_id) with
      | none =>
        exact absurd hpt0 (List.find?_eq_none.mp hf t0 ht0)
      | some t1 =>
        rw [sweepOne_live acc r t1 hf,
          List.filter_cons_of_pos (by simpa using hany)]
        simp only [List.length_append, List.length_cons, List.length_nil]
        omega

end Lemmas

/-- C1: for every recurring task with a non-null due date whose pattern
carries an offset (daily `+1` day, weekly `+7`, monthly `+30`, yearly
`+365`, custom `+interval` days), `create_next_recurring_task` returns
`None` exactly when `recurrence_end_date` is set and the next due date
exceeds it, and otherwise returns a new incomplete task due at
`due_date + offset` with `parent_task_id` pointing at the source; in
particular a daily task due at `T` with `recurrence_end_date = T + 2`
days yields, under repeated completion, tasks due at `T + 1` day and
`T + 2` days and then `None`. -/
theorem c1_recurrence_next_due
    (t : Task) (p : String) (d off : Int) (now : Int) (s : Store)
    (hrec : t.is_recurring = true)
    (hpat : t.recurrence_pattern = some p)
    (hoff : (p = "daily" ∧ off = minutesPerDay) ∨
            (p = "weekly" ∧ off = 7 * minutesPerDay) ∨
            (p = "monthly" ∧ off = 30 * minutesPerDay) ∨
            (p = "yearly" ∧ off = 365 * minutesPerDay) ∨
            (p = "custom" ∧ ∃ k : Int, t.recurrence_interval = some k ∧ 0 < k ∧
              off = k * minutesPerDay))
    (hdue : t.due_date = some d) :
    ((∃ e, t.recurrence_end_date = some e ∧ d + off > e) →
      (create_next_recurring_task t now s).1 = none) ∧
    ((∀ e, t.recurrence_end_date = some e → d + off ≤ e) →
      ∃ t', (create_next_recurring_task t now s).1 = some t' ∧
        t'.due_date = some (d + off) ∧ t'.completed = false ∧
        t'.parent_task_id = some t.id) ∧
    (∀ (T now2 : Int) (s2 : Store),
      ∃ t1 s1', create_next_recurring_task (dailyChainTask T) now2 s2 = (some t1, s1') ∧
        t1.due_date = some (T + minutesPerDay) ∧
        ∃ t2 s2', create_next_recurring_task t1 now2 s1' = (some t2, s2') ∧
          t2.due_date = some (T + 2 * minutesPerDay) ∧
          (create_next_recurring_task t2 now2 s2').1 = none) := by
  have hne : p ≠ "" := by
    rcases hoff with ⟨hp, _⟩ | ⟨hp, _⟩ | ⟨hp, _⟩ | ⟨hp, _⟩ | ⟨hp, _⟩ <;> simp [hp]
  have hnd : d + off = (if p = "daily" then d + minutesPerDay
      else if p = "weekly" then d + 7 * minutesPerDay
      else if p = "monthly" then d + 30 * minutesPerDay
      else if p = "yearly" then d + 365 * minutesPerDay
      else if p = "custom" ∧ intTruthy t.recurrence_interval then
        d + (t.recurrence_interval.getD 0) * minutesPerDay
      else d) := by
    rcases hoff with ⟨hp, ho⟩ | ⟨hp, ho⟩ | ⟨hp, ho⟩ | ⟨hp, ho⟩ |
      ⟨hp, k, hk, hkpos, ho⟩ <;> subst hp
    · simp [ho]
    · simp [ho]
    · simp [ho]
    · simp [ho]
    · have hk0 : k ≠ 0 := by omega
      simp [ho, hk, intTruthy, hk0]
  refine ⟨?_, ?_, ?_⟩
  · rintro ⟨e, he, hgt⟩
    rw [cnrt_result_endSome t p d e now s hrec hpat hne hdue he (d + off) hnd]
    simp [hgt]
  · intro hle
    cases he : t.recurrence_end_date with
    | none =>
      rw [cnrt_result_endNone t p d now s hrec hpat hne hdue he (d + off) hnd]
      exact ⟨spawnTask t (d + off) now s, rfl, rfl, rfl, rfl⟩
    | some e =>
      rw [cnrt_result_endSome t p d e now s hrec hpat hne hdue he (d + off) hnd,
        if_neg (not_lt.mpr (hle e he))]
      exact ⟨spawnTask t (d + off) now s, rfl, rfl, rfl, rfl⟩
  · intro T now2 s2
    have hc1 := cnrt_result_endSome (dailyChainTask T) "daily" T
      (T + 2 * minutesPerDay) now2 s2 rfl rfl (by simp) rfl rfl
      (T + minutesPerDay) (by simp)
    rw [if_neg (by simp only [minutesPerDay]; omega)] at hc1
    refine ⟨_, _, hc1, rfl, ?_⟩
    set t1 := spawnTask (dailyChainTask T) (T + minutesPerDay) now2 s2 with ht1
    have hc2 := cnrt_result_endSome t1 "daily" (T + minutesPerDay)
      (T + 2 * minutesPerDay) now2 (spawnFinish (dailyChainTask T) t1 now2 s2)
      rfl rfl (by simp) rfl rfl
      (T + 2 * minutesPerDay) (by simp only [minutesPerDay]; norm_num; omega)
    rw [if_neg (by omega)] at hc2
    refine ⟨_, _, hc2, rfl, ?_⟩
    set t2 := spawnTask t1 (T + 2 * minutesPerDay) now2
      (spawnFinish (dailyChainTask T) t1 now2 s2) with ht2
    have hc3 := cnrt_result_endSome t2 "daily" (T + 2 * minutesPerDay)
      (T + 2 * minutesPerDay) now2
      (spawnFinish t1 t2 now2 (spawnFinish (dailyChainTask T) t1 now2 s2))
      rfl rfl (by simp) rfl rfl
      (T + 3 * minutesPerDay) (by simp only [minutesPerDay]; norm_num; omega)
    rw [if_pos (by simp only [minutesPerDay]; omega)] at hc3
    rw [hc3]

/-- Witness for C1 at the concrete daily task due at time 0 with series
end two days later: the first completion spawns a task due at 1440. -/
theorem c1_recurrence_next_due_witness :
    ∃ t', (create_next_recurring_task (dailyChainTask 0) 0 initStore).1 = some t' ∧
      t'.due_date = some 1440 := by
  have h := c1_recurrence_next_due (dailyChainTask 0) "daily" 0 minutesPerDay 0
    initStore rfl rfl (Or.inl ⟨rfl, rfl⟩) rfl
  obtain ⟨t', ht', hdue, -, -⟩ := h.2.1
    (by intro e he; simp [dailyChainTask, minutesPerDay] at he; simp [minutesPerDay]; omega)
  exact ⟨t', ht', by rw [hdue]; norm_num [minutesPerDay]⟩

/-- A plain incomplete, non-recurring task used as a concrete witness
input. -/
def plainTask : Task :=
  { id := 1, user_id := "u1", title := "a", description := none,
    completed := false, created_at := 0, updated_at := 0,
    due_date := none, reminder_minutes := none, priority := "none",
    is_recurring := false, recurrence_pattern := none,
    recurrence_interval := none, recurrence_end_date := none,
    parent_task_id := none }

/-- A store holding only `plainTask`. -/
def plainStore : Store :=
  { initStore with tasks := [plainTask], nextTaskId := 2 }

/-- C3: toggling completion twice returns the task to its original
completion value; a spawn attempt happens only on a call whose
pre-state is incomplete (the incomplete-to-complete transition), so the
two successive calls never both spawn — the second call never creates a
second recurring occurrence. -/
theorem c3_toggle_twice
    (u : String) (tid : Nat) (now1 now2 : Int) (s : Store) (t : Task)
    (hN : (s.tasks.map Task.id).Nodup)
    (hfind : s.tasks.find? (fun x => x.id = tid && x.user_id = u) = some t) :
    (∃ t2, (toggle_complete u u tid now2
        (toggle_complete u u tid now1 s).2.2).1 = .ok t2 ∧
      t2.completed = t.completed) ∧
    ((toggle_complete u u tid now1 s).2.1.isSome = true → t.completed = false) ∧
    ((toggle_complete u u tid now2
        (toggle_complete u u tid now1 s).2.2).2.1.isSome = true →
      t.completed = true) ∧
    ¬((toggle_complete u u tid now1 s).2.1.isSome = true ∧
      (toggle_complete u u tid now2
        (toggle_complete u u tid now1 s).2.2).2.1.isSome = true) := by
  obtain ⟨s1, h1⟩ := toggle_eval u tid now1 s t hfind
  have hf1 := toggle_find_after u tid now1 s t hN hfind
  obtain ⟨s2, h2⟩ := toggle_eval u tid now2
    (toggle_complete u u tid now1 s).2.2 (toggledTask t now1) hf1
  have hfalse : (toggle_complete u u tid now1 s).2.1.isSome = true →
      t.completed = false := by
    intro hs1
    rw [h1] at hs1
    dsimp only at hs1
    by_cases hb : (!t.completed && t.is_recurring) = true
    · have hb' := hb
      simp only [Bool.and_eq_true] at hb'
      rcases hb' with ⟨h, -⟩
      simpa using h
    · rw [if_neg hb] at hs1
      simp at hs1
  have htrue : (toggle_complete u u tid now2
      (toggle_complete u u tid now1 s).2.2).2.1.isSome = true →
      t.completed = true := by
    intro hs2
    rw [h2] at hs2
    dsimp only at hs2
    by_cases hb : (!(toggledTask t now1).completed &&
        (toggledTask t now1).is_recurring) = true
    · have hb' := hb
      simp only [Bool.and_eq_true] at hb'
      rcases hb' with ⟨h, -⟩
      simp only [toggledTask, Bool.not_not] at h
      exact h
    · rw [if_neg hb] at hs2
      simp at hs2
  refine ⟨⟨toggledTask (toggledTask t now1) now2, ?_, ?_⟩, hfalse, htrue, ?_⟩
  · rw [h2]
  · simp [toggledTask]
  · rintro ⟨a, b⟩
    have hf := hfalse a
    have ht := htrue b
    rw [hf] at ht
    simp at ht

/-- Witness for C3 at a concrete incomplete task: after two toggles the
task is incomplete again. -/
theorem c3_toggle_twice_witness :
    ∃ t2, (toggle_complete "u1" "u1" 1 5
      (toggle_complete "u1" "u1" 1 3 plainStore).2.2).1 = .ok t2 ∧
      t2.completed = false := by
  obtain ⟨⟨t2, h1, h2⟩, -, -, -⟩ :=
    c3_toggle_twice "u1" 1 3 5 plainStore plainTask (by decide) (by decide)
  exact ⟨t2, h1, by rw [h2]; rfl⟩

/-- A minimal valid `TaskCreate` body. -/
def plainCreate : TaskCreate :=
  { title := "a", description := none, due_date := none,
    reminder_minutes := none, priority := "none", is_recurring := false,
    recurrence_pattern := none, recurrence_interval := none,
    recurrence_end_date := none, tag_ids := none }

/-- C9: a successfully created task has `updated_at == created_at`
(both `default_factory` reads of the request's clock), and any
successful update or completion toggle performed at a strictly later
clock reading strictly increases `updated_at` (both handlers assign
`updated_at = datetime.utcnow()`). -/
theorem c9_timestamps :
    (∀ (u : String) (d : TaskCreate) (now : Int) (s : Store) (t' : Task),
      (create_task u u d now s).1 = .ok t' → t'.updated_at = t'.created_at) ∧
    (∀ (u : String) (tid : Nat) (d : TaskUpdate) (now : Int) (s : Store)
      (t t' : Task),
      s.tasks.find? (fun x => x.id = tid && x.user_id = u) = some t →
      now > t.updated_at →
      (update_task u u tid d now s).1 = .ok t' → t'.updated_at > t.updated_at) ∧
    (∀ (u : String) (tid : Nat) (now : Int) (s : Store) (t t' : Task),
      s.tasks.find? (fun x => x.id = tid && x.user_id = u) = some t →
      now > t.updated_at →
      (toggle_complete u u tid now s).1 = .ok t' →
      t'.updated_at > t.updated_at) := by
  refine ⟨?_, ?_, ?_⟩
  · intro u d now s t' h
    unfold create_task at h
    by_cases hv : taskCreateValid d
    · rw [if_neg (by simp [hv]), if_pos rfl] at h
      dsimp only at h
      injection h with h
      rw [← h]
    · rw [if_pos (by simp [hv])] at h
      simp at h
  · intro u tid d now s t t' hfind hnow h
    unfold update_task at h
    by_cases hv : taskUpdateValid d
    · rw [if_neg (by simp [hv]), if_pos rfl] at h
      simp only [hfind] at h
      injection h with h
      rw [← h]
      simpa [applyPatch] using hnow
    · rw [if_pos (by simp [hv])] at h
      simp at h
  · intro u tid now s t t' hfind hnow h
    obtain ⟨s', hev⟩ := toggle_eval u tid now s t hfind
    rw [hev] at h
    dsimp only at h
    injection h with h
    rw [← h]
    simpa [toggledTask] using hnow

/-- Witness for C9: creating a task at time 10 gives equal timestamps,
and toggling `plainTask` (whose `updated_at` is 0) at time 7 strictly
increases `updated_at`. -/
theorem c9_timestamps_witness :
    (∃ t', (create_task "u1" "u1" plainCreate 10 initStore).1 = .ok t' ∧
      t'.updated_at = t'.created_at) ∧
    (∃ t'', (toggle_complete "u1" "u1" 1 7 plainStore).1 = .ok t'' ∧
      t''.updated_at > plainTask.updated_at) := by
  constructor
  · have hA : (create_task "u1" "u1" plainCreate 10 initStore).1 =
        .ok { plainTask with created_at := 10, updated_at := 10 } := by rfl
    exact ⟨_, hA, c9_timestamps.1 "u1" plainCreate 10 initStore _ hA⟩
  · have hB : (toggle_complete "u1" "u1" 1 7 plainStore).1 =
        .ok (toggledTask plainTask 7) := by rfl
    exact ⟨_, hB, c9_timestamps.2.2 "u1" 1 7 plainStore plainTask _
      (by decide) (by decide) hB⟩

/-- A store whose single task, tag and reminder (all with id 1) belong
to owner `"u2"`. -/
def crossStore : Store :=
  { tasks := [{ plainTask with user_id := "u2" }],
    tags := [{ id := 1, user_id := "u2", name := "work", color := "#808080",
               created_at := 0 }],
    taskTags := [],
    reminders := [{ id := 1, user_id := "u2", task_id := 1, remind_at := 0,
                    sent := false, created_at := 0 }],
    nextTaskId := 2, nextTagId := 2, nextReminderId := 2 }

/-- C6: every get/update/delete/toggle-complete on a task, every
get/update/delete on a tag, and every mark-read/delete on a reminder
that targets a record owned by a different owner fails with the same
`notFound` error that a missing record produces — never a distinct
error — so existence is not leaked to non-owners. -/
theorem c6_cross_owner_not_found
    (s : Store) (u : String) (tid gid rid : Nat)
    (tk : Task) (tg : Tag) (rm : Reminder)
    (hNt : (s.tasks.map Task.id).Nodup)
    (hNg : (s.tags.map Tag.id).Nodup)
    (hNr : (s.reminders.map Reminder.id).Nodup)
    (htk : tk ∈ s.tasks) (htkid : tk.id = tid) (htko : tk.user_id ≠ u)
    (htg : tg ∈ s.tags) (htgid : tg.id = gid) (htgo : tg.user_id ≠ u)
    (hrm : rm ∈ s.reminders) (hrmid : rm.id = rid) (hrmo : rm.user_id ≠ u) :
    (get_task u u tid s).1 = .error .notFound ∧
    (∀ (d : TaskUpdate) (now : Int), taskUpdateValid d = true →
      (update_task u u tid d now s).1 = .error .notFound) ∧
    (delete_task u u tid s).1 = .error .notFound ∧
    (∀ now : Int, (toggle_complete u u tid now s).1 = .error .notFound) ∧
    (get_tag u u gid s).1 = .error .notFound ∧
    (∀ d : TagUpdate, tagUpdateValid d = true →
      (update_tag u u gid d s).1 = .error .notFound) ∧
    (delete_tag u u gid s).1 = .error .notFound ∧
    (mark_reminder_read u u rid s).1 = .error .notFound ∧
    (delete_reminder u u rid s).1 = .error .notFound := by
  have hTask : s.tasks.find? (fun x => x.id = tid && x.user_id = u) = none :=
    find?_cross_owner_none Task.id Task.user_id s.tasks tid u tk hNt htk htkid
      htko _ (fun _ => rfl)
  have hTag : s.tags.find? (fun x => x.id = gid && x.user_id = u) = none :=
    find?_cross_owner_none Tag.id Tag.user_id s.tags gid u tg hNg htg htgid
      htgo _ (fun _ => rfl)
  have hRem : s.reminders.find? (fun x => x.id = rid && x.user_id = u) = none :=
    find?_cross_owner_none Reminder.id Reminder.user_id s.reminders rid u rm
      hNr hrm hrmid hrmo _ (fun _ => rfl)
  refine ⟨?_, ?_, ?_, ?_, ?_, ?_, ?_, ?_, ?_⟩
  · unfold get_task
    rw [if_pos rfl, hTask]
  · intro d now hv
    unfold update_task
    rw [if_neg (by simp [hv]), if_pos rfl, hTask]
  · unfold delete_task
    rw [if_pos rfl, hTask]
  · intro now
    unfold toggle_complete
    rw [if_pos rfl, hTask]
  · unfold get_tag
    rw [if_pos rfl, hTag]
  · intro d hv
    unfold update_tag
    rw [if_neg (by simp [hv]), if_pos rfl, hTag]
  · unfold delete_tag
    rw [if_pos rfl, hTag]
  · unfold mark_reminder_read
    rw [if_pos rfl, hRem]
  · unfold delete_reminder
    rw [if_pos rfl, hRem]

/-- Witness for C6: caller `"u1"` targeting records of owner `"u2"` in
`crossStore` gets `notFound` on a task get, a task toggle, a tag get
and a reminder delete. -/
theorem c6_cross_owner_not_found_witness :
    (get_task "u1" "u1" 1 crossStore).1 = .error .notFound ∧
    (toggle_complete "u1" "u1" 1 0 crossStore).1 = .error .notFound ∧
    (get_tag "u1" "u1" 1 crossStore).1 = .error .notFound ∧
    (delete_reminder "u1" "u1" 1 crossStore).1 = .error .notFound := by
  obtain ⟨h1, -, -, h4, h5, -, -, -, h9⟩ :=
    c6_cross_owner_not_found crossStore "u1" 1 1 1
      { plainTask with user_id := "u2" }
      { id := 1, user_id := "u2", name := "work", color := "#808080",
        created_at := 0 }
      { id := 1, user_id := "u2", task_id := 1, remind_at := 0,
        sent := false, created_at := 0 }
      (by decide) (by decide) (by decide)
      (by decide) (by decide) (by decide)
      (by decide) (by decide) (by decide)
      (by decide) (by decide) (by decide)
  exact ⟨h1, h4 0, h5, h9⟩

/-- C2: in every store reachable from the empty store by any sequence
of task create and task update operations, each task has at most one
unsent reminder: the query for a task's reminders with `sent=false`
never returns two rows.  (An update supplying `due_date` or
`reminder_minutes` deletes the task's existing unsent reminder before
creating the fresh one.) -/
theorem c2_at_most_one_unsent_reminder (ops : List Op) (tid : Nat) :
    ((ops.foldl runOp initStore).reminders.filter
      (fun r => r.task_id = tid && r.sent = false)).length ≤ 1 := by
  have h := (invC2_reachable ops).1 tid
  rw [countUnsent_eq_filter] at h
  exact h

/-- A valid create body with a due date and `reminder_minutes = 0`. -/
def zeroRemCreate : TaskCreate :=
  { plainCreate with due_date := some 1000, reminder_minutes := some 0 }

/-- A valid create body with a due date and `reminder_minutes = 60`. -/
def sixtyRemCreate : TaskCreate :=
  { plainCreate with due_date := some 1000, reminder_minutes := some 60 }

/-- C4 counterexample: a valid create request carrying a due date and
`reminder_minutes = 0` (an integer `>= 0`, accepted by the schema)
creates NO reminder — `if task.due_date and task.reminder_minutes:`
treats `0` as falsy — contradicting the claim that a reminder with
`remind_at = due_date - 0` is created whenever both fields are
present. -/
theorem c4_counterexample_zero_minutes :
    zeroRemCreate.due_date = some 1000 ∧
    zeroRemCreate.reminder_minutes = some 0 ∧
    taskCreateValid zeroRemCreate = true ∧
    (create_task "u1" "u1" zeroRemCreate 0 initStore).1 =
      .ok { plainTask with due_date := some 1000, reminder_minutes := some 0 } ∧
    (create_task "u1" "u1" zeroRemCreate 0 initStore).2.reminders = [] := by
  exact ⟨rfl, rfl, rfl, rfl, rfl⟩

/-- C4 amended: on create and on update, a reminder with
`remind_at = due_date - reminder_minutes` and `sent=false` is created
exactly when `due_date` is present and `reminder_minutes` is present
and nonzero; when either is absent — or `reminder_minutes` is `0` — no
reminder is created (updates still delete the existing unsent
reminder first). -/
theorem c4_reminder_creation_rules :
    (∀ (u : String) (d : TaskCreate) (now : Int) (s : Store),
      taskCreateValid d = true →
      ((∀ (D m : Int), d.due_date = some D → d.reminder_minutes = some m →
          m ≠ 0 →
        (create_task u u d now s).2.reminders = s.reminders ++
          [mkReminder s.nextReminderId u s.nextTaskId (D - m) now]) ∧
       ((d.due_date = none ∨ d.reminder_minutes = none ∨
         d.reminder_minutes = some 0) →
        (create_task u u d now s).2.reminders = s.reminders))) ∧
    (∀ (u : String) (tid : Nat) (d : TaskUpdate) (now : Int) (s : Store)
        (t : Task),
      taskUpdateValid d = true →
      s.tasks.find? (fun x => x.id = tid && x.user_id = u) = some t →
      (d.due_date.isSome || d.reminder_minutes.isSome) = true →
      ((∀ (D m : Int), (applyPatch t d now).due_date = some D →
          (applyPatch t d now).reminder_minutes = some m → m ≠ 0 →
        (update_task u u tid d now s).2.reminders =
          eraseFirstUnsent s.reminders tid ++
          [mkReminder s.nextReminderId t.user_id t.id (D - m) now]) ∧
       (((applyPatch t d now).due_date = none ∨
         (applyPatch t d now).reminder_minutes = none ∨
         (applyPatch t d now).reminder_minutes = some 0) →
        (update_task u u tid d now s).2.reminders =
          eraseFirstUnsent s.reminders tid))) := by
  constructor
  · intro u d now s hv
    constructor
    · intro D m hD hm hm0
      unfold create_task
      rw [if_neg (by simp [hv]), if_pos rfl]
      dsimp only
      cases hti : d.tag_ids with
      | none =>
        rw [addRem_pos _ now _ D m hD hm hm0]
      | some ids =>
        rw [addRem_pos _ now _ D m hD hm hm0]
        rfl
    · intro hskip
      unfold create_task
      rw [if_neg (by simp [hv]), if_pos rfl]
      dsimp only
      cases hti : d.tag_ids with
      | none =>
        rw [addRem_skip _ now _ hskip]
      | some ids =>
        rw [addRem_skip _ now _ hskip]
        rfl
  · intro u tid d now s t hv hfind hsup
    constructor
    · intro D m hD hm hm0
      unfold update_task
      rw [if_neg (by simp [hv]), if_pos rfl]
      simp only [hfind]
      rw [if_pos hsup]
      cases hti : d.tag_ids with
      | none =>
        rw [addRem_pos _ now _ D m hD hm hm0]
        rfl
      | some ids =>
        rw [addRem_pos _ now _ D m hD hm hm0]
        rfl
    · intro hskip
      unfold update_task
      rw [if_neg (by simp [hv]), if_pos rfl]
      simp only [hfind]
      rw [if_pos hsup]
      cases hti : d.tag_ids with
      | none =>
        rw [addRem_skip _ now _ hskip]
      | some ids =>
        rw [addRem_skip _ now _ hskip]
        rfl

/-- Witness for C4 (amended): creating with due date 1000 and 60-minute
lead time yields exactly one unsent reminder at 940. -/
theorem c4_reminder_creation_rules_witness :
    (create_task "u1" "u1" sixtyRemCreate 0 initStore).2.reminders =
      [mkReminder 1 "u1" 1 940 0] := by
  have h := (c4_reminder_creation_rules.1 "u1" sixtyRemCreate 0 initStore
    (by decide)).1 1000 60 rfl rfl (by decide)
  simpa using h

/-- A create body violating the recurrence invariant:
`is_recurring=true` with a null `recurrence_pattern`. -/
def badRecurCreate : TaskCreate :=
  { plainCreate with is_recurring := true, recurrence_pattern := none }

/-- C8 counterexample: a create request with `is_recurring=true` and a
null `recurrence_pattern` passes validation — neither `TaskCreate` nor
the route checks any recurrence invariant — and the task is persisted,
contradicting the claim that such a request fails with
`ValidationError` and persists nothing. -/
theorem c8_counterexample_unchecked_invariant :
    badRecurCreate.is_recurring = true ∧
    badRecurCreate.recurrence_pattern = none ∧
    taskCreateValid badRecurCreate = true ∧
    (create_task "u1" "u1" badRecurCreate 0 initStore).1 =
      .ok { plainTask with is_recurring := true } ∧
    (create_task "u1" "u1" badRecurCreate 0 initStore).2.tasks =
      [{ plainTask with is_recurring := true }] := by
  exact ⟨rfl, rfl, rfl, rfl, rfl⟩

/-- C8 amended: creation validates only per-field schema constraints
(title 1-200 chars, description at most 1000, `reminder_minutes >= 0`,
enum membership, `recurrence_interval >= 1` when supplied); the
recurrence invariants are not checked, so a field-valid request with
`is_recurring=true` and null pattern, or pattern `custom` and null
interval, succeeds and the task is persisted with those fields. -/
theorem c8_no_recurrence_validation
    (u : String) (d : TaskCreate) (now : Int) (s : Store)
    (hv : taskCreateValid d = true)
    (hbad : (d.is_recurring = true ∧ d.recurrence_pattern = none) ∨
            (d.recurrence_pattern = some "custom" ∧
             d.recurrence_interval = none)) :
    ∃ t', (create_task u u d now s).1 = .ok t' ∧
      t'.is_recurring = d.is_recurring ∧
      t'.recurrence_pattern = d.recurrence_pattern ∧
      t'.recurrence_interval = d.recurrence_interval ∧
      t' ∈ (create_task u u d now s).2.tasks := by
  clear hbad
  unfold create_task
  rw [if_neg (by simp [hv]), if_pos rfl]
  dsimp only
  refine ⟨_, rfl, rfl, rfl, rfl, ?_⟩
  rw [addReminderIfNeeded_tasks]
  cases hti : d.tag_ids with
  | none => exact List.mem_append_right _ (by simp)
  | some ids => exact List.mem_append_right _ (by simp)

/-- Witness for C8 (amended): the invariant-violating create request is
accepted and the stored task keeps `is_recurring=true` with no
pattern. -/
theorem c8_no_recurrence_validation_witness :
    ∃ t', (create_task "u1" "u1" badRecurCreate 0 initStore).1 = .ok t' ∧
      t'.is_recurring = true ∧ t'.recurrence_pattern = none := by
  obtain ⟨t', h1, h2, h3, -, -⟩ := c8_no_recurrence_validation "u1"
    badRecurCreate 0 initStore (by decide) (Or.inl ⟨rfl, rfl⟩)
  exact ⟨t', h1, by rw [h2]; rfl, by rw [h3]; rfl⟩

/-- C7 (code bug evidence): the `Reminder` model declares no `read`
column (and no `sent_at`), so the mark-read endpoint commits no
persisted change: on the owner's reminder it answers ok while the
store is untouched, and no `read` column exists for the `unread`
filter (`sent == True and read == False`) to query.  The claimed
sent-to-read transition and unread-filter behavior cannot hold. -/
theorem c7_read_flag_not_persisted :
    reminderColumns.contains "read" = false ∧
    reminderColumns.contains "sent_at" = false ∧
    reminderColumns.contains "sent" = true ∧
    (mark_reminder_read "u2" "u2" 1 crossStore).1 = .ok () ∧
    (mark_reminder_read "u2" "u2" 1 crossStore).2 = crossStore := by
  exact ⟨rfl, rfl, rfl, rfl, rfl⟩

/-- A store with one live reminder (id 1, task 1, due at 50) and one
orphan reminder (id 2, task 99 which does not exist, due at 40). -/
def c5Store : Store :=
  { tasks := [plainTask],
    tags := [], taskTags := [],
    reminders := [mkReminder 1 "u1" 1 50 0, mkReminder 2 "u1" 99 40 0],
    nextTaskId := 2, nextTagId := 1, nextReminderId := 3 }

/-- C5 counterexample: the claim's "recording sent_at=now" cannot hold —
the `Reminder` model declares no `sent_at` column, so a tick (here at
time 100) marks the due reminder `sent=true`, deletes the orphan and
emits one event, while the resulting row records no sent timestamp
(the row type has no such field). -/
theorem c5_counterexample_no_sent_at :
    reminderColumns.contains "sent_at" = false ∧
    (check_due_reminders 100 c5Store).1.reminders =
      [{ mkReminder 1 "u1" 1 50 0 with sent := true }] ∧
    (check_due_reminders 100 c5Store).2 = [.reminderDue "u1" 1 "a" 0] := by
  exact ⟨rfl, rfl, rfl⟩

/-- C5 amended: a sweeper tick emits exactly one `reminder.due` event
per due unsent reminder whose task exists and marks each such reminder
`sent=true`; a due unsent reminder whose task no longer exists is
deleted and contributes no event; and a tick at a time when no due
unsent reminder exists emits nothing.  (No `sent_at` is recorded: the
model has no such column.) -/
theorem c5_sweeper_tick (s : Store) (now : Int)
    (hN : (s.reminders.map Reminder.id).Nodup) :
    ((check_due_reminders now s).2.length =
      ((s.reminders.filter (fun r => decide (r.remind_at ≤ now) && !r.sent)).filter
        (fun r => s.tasks.any (fun t => t.id = r.task_id))).length) ∧
    (∀ r ∈ s.reminders, r.remind_at ≤ now → r.sent = false →
      s.tasks.any (fun t => t.id = r.task_id) = true →
      { r with sent := true } ∈ (check_due_reminders now s).1.reminders) ∧
    (∀ r ∈ s.reminders, r.remind_at ≤ now → r.sent = false →
      s.tasks.any (fun t => t.id = r.task_id) = false →
      ∀ x ∈ (check_due_reminders now s).1.reminders, x.id ≠ r.id) ∧
    (∀ (s2 : Store) (now2 : Int),
      (∀ r ∈ s2.reminders, r.sent = true ∨ now2 < r.remind_at) →
      (check_due_reminders now2 s2).2 = []) := by
  refine ⟨?_, ?_, ?_, ?_⟩
  · show ((s.reminders.filter
        (fun r => decide (r.remind_at ≤ now) && !r.sent)).foldl
        sweepOne (s, [])).2.length = _
    rw [sweep_events_count]
    simp
  · intro r hr hdue hsent hany
    have hrP : (decide (r.remind_at ≤ now) && !r.sent) = true := by
      simp [hdue, hsent]
    have hrL : r ∈ s.reminders.filter
        (fun r => decide (r.remind_at ≤ now) && !r.sent) :=
      List.mem_filter.mpr ⟨hr, hrP⟩
    obtain ⟨L1, L2, heq⟩ := List.append_of_mem hrL
    have hLN : ((s.reminders.filter
        (fun r => decide (r.remind_at ≤ now) && !r.sent)).map Reminder.id).Nodup :=
      List.Nodup.sublist ((List.filter_sublist _).map _) hN
    rw [heq, List.map_append, List.map_cons] at hLN
    obtain ⟨hn1, hn2, hdisj⟩ := List.nodup_append.mp hLN
    have hL1 : ∀ y ∈ L1, y.id ≠ r.id := by
      intro y hy hc
      exact hdisj (List.mem_map_of_mem _ hy)
        (by rw [hc]; exact List.mem_cons_self _ _)
    have hL2 : ∀ y ∈ L2, y.id ≠ r.id := by
      intro y hy hc
      rw [List.nodup_cons] at hn2
      exact hn2.1 (by rw [← hc]; exact List.mem_map_of_mem _ hy)
    show _ ∈ ((s.reminders.filter
        (fun r => decide (r.remind_at ≤ now) && !r.sent)).foldl
        sweepOne (s, [])).1.reminders
    rw [heq, List.foldl_append, List.foldl_cons]
    have htasks1 : (L1.foldl sweepOne ((s : Store), ([] : List Event))).1.tasks
        = s.tasks := sweep_foldl_tasks L1 _
    have hrmem : r ∈ (L1.foldl sweepOne ((s : Store), ([] : List Event))).1.reminders :=
      sweep_pres_mem L1 _ r hL1 hr
    obtain ⟨t0, ht0, hpt0⟩ := List.any_eq_true.mp hany
    cases hf : (L1.foldl sweepOne ((s : Store), ([] : List Event))).1.tasks.find?
        (fun t => t.id = r.task_id) with
    | none =>
      rw [htasks1] at hf
      exact absurd hpt0 (List.find?_eq_none.mp hf t0 ht0)
    | some t1 =>
      rw [sweepOne_live _ r t1 hf]
      exact sweep_pres_mem L2 _ _ (fun y hy => hL2 y hy) (marked_mem _ _ hrmem)
  · intro r hr hdue hsent hany
    have hrP : (decide (r.remind_at ≤ now) && !r.sent) = true := by
      simp [hdue, hsent]
    have hrL : r ∈ s.reminders.filter
        (fun r => decide (r.remind_at ≤ now) && !r.sent) :=
      List.mem_filter.mpr ⟨hr, hrP⟩
    obtain ⟨L1, L2, heq⟩ := List.append_of_mem hrL
    show ∀ x ∈ ((s.reminders.filter
        (fun r => decide (r.remind_at ≤ now) && !r.sent)).foldl
        sweepOne (s, [])).1.reminders, x.id ≠ r.id
    rw [heq, List.foldl_append, List.foldl_cons]
    have htasks1 : (L1.foldl sweepOne ((s : Store), ([] : List Event))).1.tasks
        = s.tasks := sweep_foldl_tasks L1 _
    have hnodup1 : ((L1.foldl sweepOne ((s : Store), ([] : List Event))).1.reminders.map
        Reminder.id).Nodup := sweep_foldl_nodup L1 _ hN
    have hf : (L1.foldl sweepOne ((s : Store), ([] : List Event))).1.tasks.find?
        (fun t => t.id = r.task_id) = none := by
      rw [htasks1, List.find?_eq_none]
      intro x hx hpx
      have htr : s.tasks.any (fun t => t.id = r.task_id) = true :=
        List.any_eq_true.mpr ⟨x, hx, hpx⟩
      rw [hany] at htr
      exact absurd htr (by simp)
    rw [sweepOne_orphan _ r hf]
    exact sweep_pres_absent L2 _ r.id
      (fun x hx => erase_removes_id _ r.id hnodup1 x hx)
  · intro s2 now2 hq
    show ((s2.reminders.filter
        (fun r => decide (r.remind_at ≤ now2) && !r.sent)).foldl
        sweepOne (s2, [])).2 = []
    have hnil : s2.reminders.filter
        (fun r => decide (r.remind_at ≤ now2) && !r.sent) = [] := by
      rw [List.filter_eq_nil_iff]
      intro r hr hc
      simp only [Bool.and_eq_true, decide_eq_true_eq, Bool.not_eq_true'] at hc
      rcases hq r hr with h | h
      · rw [hc.2] at h
        exact absurd h (by simp)
      · omega
    rw [hnil]
    rfl

/-- Witness for C5 (amended) at `c5Store`: the due reminder of the
existing task ends up marked sent and exactly one event is emitted. -/
theorem c5_sweeper_tick_witness :
    { mkReminder 1 "u1" 1 50 0 with sent := true } ∈
      (check_due_reminders 100 c5Store).1.reminders ∧
    (check_due_reminders 100 c5Store).2.length = 1 := by
  have h := c5_sweeper_tick c5Store 100 (by decide)
  refine ⟨?_, ?_⟩
  · exact h.2.1 (mkReminder 1 "u1" 1 50 0) (by decide) (by decide)
      (by decide) (by decide)
  · rw [h.1]
    rfl

/-- A recurring task whose pattern is the enum value `"none"`, i.e.
matches no branch of the next-due computation. -/
def noPatternTask : Task :=
  { id := 5, user_id := "u1", title := "x", description := none,
    completed := false, created_at := 0, updated_at := 0,
    due_date := some 100, reminder_minutes := none, priority := "none",
    is_recurring := true, recurrence_pattern := some "none",
    recurrence_interval := none, recurrence_end_date := none,
    parent_task_id := none }

/-- C10: for a recurring task with a due date whose pattern is `custom`
with a null interval, or is an enum value matching none of
daily/weekly/monthly/yearly/custom (i.e. `"none"`),
`create_next_recurring_task` does not return `None` (when the series
end is absent or not exceeded): it spawns a new incomplete task whose
due date equals the source's unchanged, with `parent_task_id` set to
the source id. -/
theorem c10_no_offset_spawns_same_due
    (t : Task) (p : String) (d : Int) (now : Int) (s : Store)
    (hrec : t.is_recurring = true)
    (hpat : t.recurrence_pattern = some p)
    (hvalid : validRecPattern p = true)
    (hmiss : (p = "custom" ∧ t.recurrence_interval = none) ∨
             (p ≠ "daily" ∧ p ≠ "weekly" ∧ p ≠ "monthly" ∧ p ≠ "yearly" ∧
              p ≠ "custom"))
    (hdue : t.due_date = some d)
    (hend : t.recurrence_end_date = none ∨
            ∃ e, t.recurrence_end_date = some e ∧ d ≤ e) :
    ∃ t', (create_next_recurring_task t now s).1 = some t' ∧
      t'.due_date = some d ∧ t'.completed = false ∧
      t'.parent_task_id = some t.id ∧ t'.is_recurring = true := by
  have hne : p ≠ "" := by
    intro h
    rw [h] at hvalid
    simp [validRecPattern] at hvalid
  have hnd : d = (if p = "daily" then d + minutesPerDay
      else if p = "weekly" then d + 7 * minutesPerDay
      else if p = "monthly" then d + 30 * minutesPerDay
      else if p = "yearly" then d + 365 * minutesPerDay
      else if p = "custom" ∧ intTruthy t.recurrence_interval then
        d + (t.recurrence_interval.getD 0) * minutesPerDay
      else d) := by
    rcases hmiss with ⟨hp, hint⟩ | ⟨h1, h2, h3, h4, h5⟩
    · subst hp
      simp [hint, intTruthy]
    · simp [h1, h2, h3, h4, h5]
  rcases hend with he | ⟨e, he, hle⟩
  · rw [cnrt_result_endNone t p d now s hrec hpat hne hdue he d hnd]
    exact ⟨spawnTask t d now s, rfl, rfl, rfl, rfl, rfl⟩
  · rw [cnrt_result_endSome t p d e now s hrec hpat hne hdue he d hnd,
      if_neg (not_lt.mpr hle)]
    exact ⟨spawnTask t d now s, rfl, rfl, rfl, rfl, rfl⟩

/-- Witness for C10 at a concrete recurring task with pattern `"none"`
due at 100: a next occurrence is spawned, still due at 100, pointing at
the source task. -/
theorem c10_no_offset_spawns_same_due_witness :
    ∃ t', (create_next_recurring_task noPatternTask 0 initStore).1 = some t' ∧
      t'.due_date = some 100 ∧ t'.parent_task_id = some 5 := by
  obtain ⟨t', h1, h2, _, h4, _⟩ := c10_no_offset_spawns_same_due noPatternTask
    "none" 100 0 initStore rfl rfl rfl (Or.inr (by simp)) rfl (Or.inl rfl)
  exact ⟨t', h1, h2, by rw [h4]; rfl⟩

end TodoApp

